import Mathlib

/-!
Verification development for the propheseer Python SDK
(resilient transport and reconnecting stream layer).

Shallow embedding conventions:
* Python `int` is `Int` (or `Nat` where the source value is a count),
  Python `float` arithmetic on the exactly-representable values used by the
  backoff computations is `ℚ`, `random.random()` is an explicit
  parameter `u` with `0 ≤ u < 1`.
* JSON values are the inductive `Json` below; Python truthiness is `Json.truthy`.
* `httpx.Headers` is an association list of strings; `headers.get` is `hGet`.
* Fallible Python code (functions that can raise) returns `Except String _`.
-/

namespace Propheseer

/-- JSON-like values (Python objects produced by `response.json()`).
Numbers are modelled as integers: every numeric field consulted by the
embedded code (`balanceCents`, `retryAfter`, header counters, ...) is an
integer on the wire. -/
inductive Json where
  | null : Json
  | bool (b : Bool) : Json
  | num (n : Int) : Json
  | str (s : String) : Json
  | arr (elems : List Json) : Json
  | obj (fields : List (String × Json)) : Json

/-- Python truthiness of a JSON-like value
(`None`, `False`, `0`, `""`, `[]`, `{}` are falsy). -/
def Json.truthy : Json → Bool
  | .null => false
  | .bool b => b
  | .num n => n != 0
  | .str s => s != ""
  | .arr elems => !elems.isEmpty
  | .obj fields => !fields.isEmpty

/-- Python dictionary lookup `d.get(key)` on a JSON object body. -/
def dictGet (fields : List (String × Json)) (key : String) : Option Json :=
  (fields.find? (fun p => p.1 == key)).map (·.2)

/-- Python `a or b` where `a : Optional[Json]` (falsy values fall through). -/
def pyOr (a : Option Json) (b : Json) : Json :=
  match a with
  | some v => if v.truthy then v else b
  | none => b

/-- HTTP response headers (`httpx.Headers`); keys are case-normalized by
httpx so plain lookup suffices. -/
def Headers := List (String × String)

/-- `headers.get(key)`. -/
def hGet (headers : Headers) (key : String) : Option String :=
  (headers.find? (fun p => p.1 == key)).map (·.2)

/-! ## Pagination (`_pagination.py`) -/

/-- `PaginationMeta`: pagination metadata `{total, limit, offset}`
(the `sources` field is irrelevant to control flow and omitted). -/
structure PaginationMeta where
  total : Int
  limit : Int
  offset : Int
deriving DecidableEq, Repr

/-- `SyncPage.has_more`: `self.meta.offset + self.meta.limit < self.meta.total`. -/
def PaginationMeta.has_more (m : PaginationMeta) : Bool :=
  decide (m.offset + m.limit < m.total)

/-- `SyncPage.next_offset`: `None` if `not has_more()`, else `offset + limit`. -/
def PaginationMeta.next_offset (m : PaginationMeta) : Option Int :=
  if !m.has_more then none else some (m.offset + m.limit)

/-! ## Retry/backoff engine (`_base_client.py`) -/

/-- `_is_retryable`: `status_code == 429 or status_code >= 500`. -/
def _is_retryable (status_code : Int) : Bool :=
  status_code == 429 || decide (500 ≤ status_code)

/-- The attributes of a previous error consulted by `_get_retry_delay`:
`isinstance(last_error, RateLimitError)` and `last_error.retry_after`
(declared `Optional[int]` on `RateLimitError` in `_exceptions.py`). -/
structure LastErrorInfo where
  is_rate_limit : Bool
  retry_after : Option Int
deriving DecidableEq, Repr

/-- `_get_retry_delay(attempt, last_error)`.  `random.random()` is the
explicit parameter `u`; the caller supplies `0 ≤ u < 1`.  The guard
`isinstance(last_error, RateLimitError) and last_error.retry_after`
uses Python truthiness, so `retry_after` equal to `None` or `0` falls
through to the exponential backoff. -/
def _get_retry_delay (attempt : Nat) (last_error : Option LastErrorInfo)
    (u : ℚ) : ℚ :=
  let base_delay : ℚ := (1/2) * 2 ^ (attempt - 1)
  let jitter : ℚ := u * base_delay * (1/2)
  match last_error with
  | some e =>
    match e.retry_after with
    | some v => if e.is_rate_limit && (v != 0) then (v : ℚ) else base_delay + jitter
    | none => base_delay + jitter
  | none => base_delay + jitter

/-! ## Error taxonomy (`_exceptions.py` and `_map_status_to_error`) -/

/-- The discriminating kind of an error value (the Python class). -/
inductive ErrKind where
  | authentication
  | insufficientCredits
  | permissionDenied
  | notFound
  | rateLimit
  | internalServer
  | connection
  | generic
deriving DecidableEq, Repr

/-- The attribute record shared by `PropheseerError` and its subclasses.
Subclass-specific attributes are optional fields filled by the matching
constructor function below; values read out of a JSON body keep type `Json`
(Python stores them untyped). -/
structure PropheseerError where
  kind : ErrKind
  message : Json
  status : Option Int := none
  code : Option Json := none
  headers : Option (List (String × String)) := none
  balance_cents : Option Json := none
  required_cents : Option Json := none
  required_plan : Option Json := none
  retry_after : Option Json := none

/-- Python `a or b` for an optional integer (`status or 500`). -/
def pyOrInt (a : Option Int) (b : Int) : Int :=
  match a with
  | some v => if v ≠ 0 then v else b
  | none => b

/-- `AuthenticationError(message, headers)`. -/
def AuthenticationError (message : Json) (headers : Option (List (String × String))) :
    PropheseerError :=
  { kind := .authentication, message := message, status := some 401,
    code := some (.str "UNAUTHORIZED"), headers := headers }

/-- `InsufficientCreditsError(message, balance_cents, required_cents, headers)`. -/
def InsufficientCreditsError (message : Json)
    (balance_cents required_cents : Option Json)
    (headers : Option (List (String × String))) : PropheseerError :=
  { kind := .insufficientCredits, message := message, status := some 402,
    code := some (.str "INSUFFICIENT_CREDITS"), headers := headers,
    balance_cents := balance_cents, required_cents := required_cents }

/-- `PermissionDeniedError(message, code, required_plan, headers)`; the stored
code is `code or "FORBIDDEN"`. -/
def PermissionDeniedError (message : Json) (code required_plan : Option Json)
    (headers : Option (List (String × String))) : PropheseerError :=
  { kind := .permissionDenied, message := message, status := some 403,
    code := some (pyOr code (.str "FORBIDDEN")), headers := headers,
    required_plan := required_plan }

/-- `NotFoundError(message, headers)`. -/
def NotFoundError (message : Json) (headers : Option (List (String × String))) :
    PropheseerError :=
  { kind := .notFound, message := message, status := some 404,
    code := some (.str "NOT_FOUND"), headers := headers }

/-- `RateLimitError(message, retry_after, headers)`. -/
def RateLimitError (message : Json) (retry_after : Option Json)
    (headers : Option (List (String × String))) : PropheseerError :=
  { kind := .rateLimit, message := message, status := some 429,
    code := some (.str "RATE_LIMITED"), headers := headers,
    retry_after := retry_after }

/-- `InternalServerError(message, status, headers)`; the stored status is
`status or 500`. -/
def InternalServerError (message : Json) (status : Option Int)
    (headers : Option (List (String × String))) : PropheseerError :=
  { kind := .internalServer, message := message, status := some (pyOrInt status 500),
    code := some (.str "INTERNAL_ERROR"), headers := headers }

/-- Calling the base class `PropheseerError(message, status=..., code=...,
headers=...)` directly (the generic fallthrough of the mapper). -/
def mkPropheseerError (message : Json) (status : Option Int) (code : Option Json)
    (headers : Option (List (String × String))) : PropheseerError :=
  { kind := .generic, message := message, status := status, code := code,
    headers := headers }

/-- `_map_status_to_error(status_code, body, headers)`. -/
def _map_status_to_error (status_code : Int) (body : List (String × Json))
    (headers : Headers) : PropheseerError :=
  let message := pyOr (dictGet body "error")
    (pyOr (dictGet body "message") (.str ("API error: " ++ toString status_code)))
  if status_code = 401 then
    AuthenticationError message (some headers)
  else if status_code = 402 then
    InsufficientCreditsError message (dictGet body "balanceCents")
      (dictGet body "requiredCents") (some headers)
  else if status_code = 403 then
    PermissionDeniedError message (dictGet body "code")
      (dictGet body "requiredPlan") (some headers)
  else if status_code = 404 then
    NotFoundError message (some headers)
  else if status_code = 429 then
    RateLimitError message (dictGet body "retryAfter") (some headers)
  else if 500 ≤ status_code then
    InternalServerError message (some status_code) (some headers)
  else
    mkPropheseerError message (some status_code) (dictGet body "code") (some headers)

/-! ## Rate-limit header parser (`_response.py`) -/

/-- `RateLimitInfo` dataclass. -/
structure RateLimitInfo where
  plan : String
  billing_type : String := "subscription"
  limit_day : Option Int := none
  remaining_day : Option Int := none
  limit_minute : Option Int := none
  remaining_minute : Option Int := none
  credit_balance_cents : Option Int := none
  credit_balance : Option String := none
  request_cost_cents : Option Int := none
  request_cost : Option String := none
deriving DecidableEq, Repr

/-- Decimal digit accumulator for `pyIntRead`. -/
def digitsAux : Nat → List Char → Option Nat
  | acc, [] => some acc
  | acc, c :: cs =>
    if 48 ≤ c.toNat ∧ c.toNat ≤ 57 then
      digitsAux (acc * 10 + (c.toNat - 48)) cs
    else none

/-- The successful readings of Python `int(s)`: an optional sign followed by
at least one decimal digit.  (Python additionally strips surrounding
whitespace and allows digit-group underscores; no input in this development
uses those forms.) -/
def pyIntRead (s : String) : Option Int :=
  match s.data with
  | [] => none
  | '-' :: rest =>
    if rest = [] then none else (digitsAux 0 rest).map (fun n => -(n : Int))
  | '+' :: rest =>
    if rest = [] then none else (digitsAux 0 rest).map (fun n => (n : Int))
  | l => (digitsAux 0 l).map (fun n => (n : Int))

/-- Python `int(s)`; the error case models the `ValueError` raised on a
malformed literal. -/
def pyInt (s : String) : Except String Int :=
  match pyIntRead s with
  | some n => .ok n
  | none => .error ("invalid literal for int() with base 10: " ++ s)

/-- `headers.get(name)` followed by `int(...)` when the header is present
(the `if value is not None: ... int(value)` pattern of
`parse_rate_limit_headers`). -/
def hGetInt (headers : Headers) (name : String) : Except String (Option Int) :=
  match hGet headers name with
  | none => .ok none
  | some s => (pyInt s).map some

/-- The header names whose values `parse_rate_limit_headers` feeds to `int`. -/
def numericRateLimitHeaderNames : List String :=
  ["x-credit-balance-cents", "x-request-cost-cents",
   "x-ratelimit-limit-day", "x-ratelimit-remaining-day",
   "x-ratelimit-limit-minute", "x-ratelimit-remaining-minute"]

/-- The credits-mode field extraction of `parse_rate_limit_headers`
(`if billing_type == "credits"` branch); each `.error` arm is a
`ValueError` propagating out of a statement. -/
def parse_credits_fields (headers : Headers) (plan billing_type : String) :
    Except String (Option RateLimitInfo) :=
  match hGetInt headers "x-credit-balance-cents" with
  | .error e => .error e
  | .ok credit_balance_cents =>
    match hGetInt headers "x-request-cost-cents" with
    | .error e => .error e
    | .ok request_cost_cents =>
      .ok (some { plan := plan, billing_type := billing_type,
                  credit_balance_cents := credit_balance_cents,
                  credit_balance := hGet headers "x-credit-balance",
                  request_cost_cents := request_cost_cents,
                  request_cost := hGet headers "x-request-cost" })

/-- The subscription-mode field extraction of `parse_rate_limit_headers`
(the `else` branch). -/
def parse_subscription_fields (headers : Headers) (plan billing_type : String) :
    Except String (Option RateLimitInfo) :=
  match hGetInt headers "x-ratelimit-limit-day" with
  | .error e => .error e
  | .ok limit_day =>
    match hGetInt headers "x-ratelimit-remaining-day" with
    | .error e => .error e
    | .ok remaining_day =>
      match hGetInt headers "x-ratelimit-limit-minute" with
      | .error e => .error e
      | .ok limit_minute =>
        match hGetInt headers "x-ratelimit-remaining-minute" with
        | .error e => .error e
        | .ok remaining_minute =>
          .ok (some { plan := plan, billing_type := billing_type,
                      limit_day := limit_day, remaining_day := remaining_day,
                      limit_minute := limit_minute,
                      remaining_minute := remaining_minute })

/-- The body of `parse_rate_limit_headers` once the plan header value is in
hand; `billing_type` is `headers.get("x-billing-type", "subscription")`
(hoisted to the caller; both are pure header reads). -/
def parse_with_plan (headers : Headers) (plan billing_type : String) :
    Except String (Option RateLimitInfo) :=
  if plan = "" then .ok none
  else if billing_type = "credits" then
    parse_credits_fields headers plan billing_type
  else
    parse_subscription_fields headers plan billing_type

/-- `parse_rate_limit_headers(headers)`.  The `Except` layer carries the
`ValueError` a malformed present numeric header raises; `.ok none` is the
function returning `None` (`if not plan`, which is taken both when the plan
header is missing and when it is present but empty). -/
def parse_rate_limit_headers (headers : Headers) :
    Except String (Option RateLimitInfo) :=
  match hGet headers "x-ratelimit-plan" with
  | none => .ok none
  | some plan =>
    parse_with_plan headers plan ((hGet headers "x-billing-type").getD "subscription")

/-! ## Request pipeline (`BaseSyncClient._request`) -/

/-- The network's behaviour on one attempt: what `self._client.request`
followed by `response.json()` produces.  `httpError` carries the parsed
error body, or `none` when the body is unparseable (`error_body = {}`). -/
inductive NetOutcome where
  | success (body : Json) (headers : Headers)
  | httpError (status : Int) (body : Option (List (String × Json))) (headers : Headers)
  | timeout
  | connError (message : String)

/-- What `_request` does for its caller: return parsed data plus the
rate-limit snapshot, raise a `PropheseerError`, or let a non-SDK exception
escape (the `ValueError` the rate-limit parser can raise is caught by none
of the `except` clauses). -/
inductive ReqFailure where
  | api (e : PropheseerError)
  | pyExc (msg : String)

/-- `APIConnectionError(message, cause)`; the wrapped cause is dropped, the
interpolated message text is abbreviated (no claim consults it). -/
def APIConnectionError (message : Json) : PropheseerError :=
  { kind := .connection, message := message }

/-- Python truthiness of the optional `api_key` string (`not self.api_key`). -/
def truthyStr : Option String → Bool
  | none => false
  | some s => s != ""

/-- The retry loop of `_request`, one recursive step per iteration of
`for attempt in range(max_retries + 1)`.  `net attempt` is the network's
behaviour on that attempt; `remaining` is the fuel `max_retries + 1 - attempt`
(the base case is the loop falling through to
`raise last_error or PropheseerError("Request failed after retries")`).
The inter-attempt `time.sleep(_get_retry_delay(...))` changes no data and is
not recorded.  The second component counts network calls issued. -/
def requestLoop (net : Nat → NetOutcome) (max_retries : Nat) :
    Nat → Nat → Option PropheseerError →
    (Except ReqFailure (Json × Option RateLimitInfo)) × Nat
  | 0, _, lastError =>
    (.error (.api (match lastError with
      | some e => e
      | none => mkPropheseerError (.str "Request failed after retries")
          none none none)), 0)
  | remaining + 1, attempt, _ =>
    match net attempt with
    | .success body headers =>
      match parse_rate_limit_headers headers with
      | .ok rate_limit => (.ok (body, rate_limit), 1)
      | .error msg => (.error (.pyExc msg), 1)
    | .httpError status body headers =>
      let error_body := body.getD []
      let error := _map_status_to_error status error_body headers
      if _is_retryable status && decide (attempt < max_retries) then
        let rec_result := requestLoop net max_retries remaining (attempt + 1) (some error)
        (rec_result.1, rec_result.2 + 1)
      else
        (.error (.api error), 1)
    | .timeout =>
      let timeout_error := APIConnectionError (.str "Request timed out")
      if attempt < max_retries then
        let rec_result := requestLoop net max_retries remaining (attempt + 1) (some timeout_error)
        (rec_result.1, rec_result.2 + 1)
      else
        (.error (.api timeout_error), 1)
    | .connError m =>
      let conn_error := APIConnectionError (.str ("Connection error: " ++ m))
      if attempt < max_retries then
        let rec_result := requestLoop net max_retries remaining (attempt + 1) (some conn_error)
        (rec_result.1, rec_result.2 + 1)
      else
        (.error (.api conn_error), 1)

/-- `BaseSyncClient._request`: the local credential precondition, then the
retry loop.  `api_key` is the resolved credential (explicit argument or
environment fallback, already merged by `__init__`). -/
def _request (api_key : Option String) (auth : Bool) (max_retries : Nat)
    (net : Nat → NetOutcome) :
    (Except ReqFailure (Json × Option RateLimitInfo)) × Nat :=
  if auth && !truthyStr api_key then
    (.error (.api (AuthenticationError
      (.str ("API key is required. Pass it to the constructor " ++
        "or set the PROPHESEER_API_KEY environment variable.")) none)), 0)
  else
    requestLoop net max_retries (max_retries + 1) 0 none

/-! ## Auto-pagination driver (`resources/markets.py`,
`SyncMarkets.list_auto_paginate`) -/

/-- A page as returned by `SyncMarkets.list`: items plus the server-reported
pagination metadata. -/
structure Page (α : Type) where
  data : List α
  meta : PaginationMeta

/-- Whether the caller-supplied cap is "active" under Python truthiness
(the `max_items and ...` guard): present and nonzero.  `max_items` is a
count, modelled as `Nat`. -/
def capActive : Option Nat → Bool
  | none => false
  | some k => k != 0

/-- The `for item in page.data` body of `list_auto_paginate`: yield the
item, increment `yielded`, and return from the generator when
`max_items and yielded >= max_items`.  Returns the yielded items, the
updated count, and whether the generator returned. -/
def consumeItems (max_items : Option Nat) : Nat → List α → List α × Nat × Bool
  | yielded, [] => ([], yielded, false)
  | yielded, item :: rest =>
    let y := yielded + 1
    if capActive max_items && decide (max_items.getD 0 ≤ y) then
      ([item], y, true)
    else
      let step := consumeItems max_items y rest
      (item :: step.1, step.2)

/-- The `while True` loop of `list_auto_paginate`, driven by explicit fuel
(an upper bound on the number of requests; the Python loop is unbounded and
can run forever against an adversarial server, which `none` represents).
`fetch offset` is `self.list(..., limit=page_limit, offset=offset)`;
after a non-terminal page the next offset is `page.next_offset()`, i.e.
`page.meta.offset + page.meta.limit`.  Returns the yielded items and the
number of requests issued. -/
def autoPaginateGo (fetch : Int → Page α) (max_items : Option Nat) :
    Nat → Int → Nat → Option (List α × Nat)
  | 0, _, _ => none
  | fuel + 1, offset, yielded =>
    let page := fetch offset
    let step := consumeItems max_items yielded page.data
    if step.2.2 then some (step.1, 1)
    else if !page.meta.has_more || page.data.isEmpty then some (step.1, 1)
    else
      Option.map (fun pr => (step.1 ++ pr.1, pr.2 + 1))
        (autoPaginateGo fetch max_items fuel
          (page.meta.offset + page.meta.limit) step.2.1)

/-- `SyncMarkets.list_auto_paginate(...)`: the loop starting at
`offset = 0`, `yielded = 0`. -/
def list_auto_paginate (fetch : Int → Page α) (max_items : Option Nat)
    (fuel : Nat) : Option (List α × Nat) :=
  autoPaginateGo fetch max_items fuel 0 0

/-- The offset of the k-th request the driver issues when it starts at
`start` (the server-driven offset chain). -/
def chainOffset (fetch : Int → Page α) (start : Int) : Nat → Int
  | 0 => start
  | k + 1 =>
    (fetch (chainOffset fetch start k)).meta.offset +
      (fetch (chainOffset fetch start k)).meta.limit

/-- The page at position `k` of the chain ends the loop: it reports no more
pages or contains no items. -/
def stopsAt (fetch : Int → Page α) (start : Int) (k : Nat) : Prop :=
  (fetch (chainOffset fetch start k)).meta.has_more = false ∨
    (fetch (chainOffset fetch start k)).data = []

instance {α : Type} [DecidableEq α] (fetch : Int → Page α) (start : Int)
    (k : Nat) : Decidable (stopsAt fetch start k) := by
  unfold stopsAt
  infer_instance

/-- Total number of items on the first `m` pages of the chain (what the
driver has yielded when it starts consuming page `m`, absent a cap). -/
def chainCount (fetch : Int → Page α) (start : Int) : Nat → Nat
  | 0 => 0
  | m + 1 =>
    chainCount fetch start m + (fetch (chainOffset fetch start m)).data.length

/-- Concrete two-page server for the pagination scenarios: the page at
offset 0 holds one item, the page at offset 1 holds the second;
`total = 2`, `limit = 1`. -/
def fetchTwoPages : Int → Page Nat :=
  fun o =>
    if o = 0 then ⟨[10], ⟨2, 1, 0⟩⟩
    else if o = 1 then ⟨[20], ⟨2, 1, 1⟩⟩
    else ⟨[], ⟨2, 1, 2⟩⟩

/-- Concrete single-page server with two available items (`total = 2`,
`limit = 50`). -/
def fetchOnePageTwoItems : Int → Page Nat :=
  fun _ => ⟨[10, 20], ⟨2, 50, 0⟩⟩

/-- Concrete server whose every page holds two items and reports more pages
(`has_more` is true: `0 + 2 < 1000000`); without a cap the driver would keep
requesting. -/
def fetchEndlessPages : Int → Page Nat :=
  fun _ => ⟨[7, 8], ⟨1000000, 2, 0⟩⟩

/-! ## Key-casing normalizer (`_camel_to_snake`, `_transform_keys`) -/

/-- The regex character class `[A-Z]`. -/
def isUp (c : Char) : Bool := 65 ≤ c.toNat && c.toNat ≤ 90

/-- The regex character class `[a-z]`. -/
def isLow (c : Char) : Bool := 97 ≤ c.toNat && c.toNat ≤ 122

/-- The regex character class `\d` on the ASCII keys in use. -/
def isDigitCh (c : Char) : Bool := 48 ≤ c.toNat && c.toNat ≤ 57

/-- `_CAMEL_RE_1.sub(r"\1_\2", s)` with pattern `([A-Z]+)([A-Z][a-z])`, as a
character scan: the pattern matches exactly where an uppercase letter is
followed by an uppercase letter that is itself followed by a lowercase
letter, and the replacement inserts `_` between the two uppercase letters.
Scanning on without consuming the matched suffix is equivalent to
`re.sub`'s non-overlapping scan here: the two characters after an insertion
point are uppercase-then-lowercase, and this pattern can neither start at a
character that is followed by a lowercase letter's position in that pair
nor start at the lowercase letter itself. -/
def sub1 : List Char → List Char
  | a :: b :: c :: rest =>
    if isUp a && isUp b && isLow c then a :: '_' :: sub1 (b :: c :: rest)
    else a :: sub1 (b :: c :: rest)
  | l => l

/-- `_CAMEL_RE_2.sub(r"\1_\2", s)` with pattern `([a-z0-9])([A-Z])`; the two
matched characters are consumed as in `re.sub` (adjacent matches cannot
overlap: no character is both uppercase and lowercase-or-digit). -/
def sub2 : List Char → List Char
  | a :: b :: rest =>
    if (isLow a || isDigitCh a) && isUp b then a :: '_' :: b :: sub2 rest
    else a :: sub2 (b :: rest)
  | l => l

/-- `_DIGIT_BOUNDARY_RE.sub(r"\1_\2", s)` with pattern `([a-z])(\d)`; same
consumption discipline as `sub2`. -/
def sub3 : List Char → List Char
  | a :: b :: rest =>
    if isLow a && isDigitCh b then a :: '_' :: b :: sub3 rest
    else a :: sub3 (b :: rest)
  | l => l

/-- `str.lower()` on the characters the SDK's keys can contain: ASCII
uppercase shifts into lowercase, everything else is unchanged.  (Python's
`lower()` also lowercases non-ASCII cased letters; the regex rewrites above
never match those and no key uses them.) -/
def lowerChar (c : Char) : Char :=
  if isUp c then Char.ofNat (c.toNat + 32) else c

/-- `_camel_to_snake(name)`: the three regex passes, then `.lower()`. -/
def _camel_to_snake (name : String) : String :=
  String.mk ((sub3 (sub2 (sub1 name.data))).map lowerChar)

mutual

/-- `_transform_keys(obj)`: recursively rewrite every mapping key, descend
through lists, and pass every other value through unchanged. -/
def _transform_keys : Json → Json
  | .obj fields => .obj (transformObjFields fields)
  | .arr elems => .arr (transformArrItems elems)
  | j => j

/-- The dict comprehension of `_transform_keys`. -/
def transformObjFields : List (String × Json) → List (String × Json)
  | [] => []
  | (k, v) :: rest =>
    (_camel_to_snake k, _transform_keys v) :: transformObjFields rest

/-- The list comprehension of `_transform_keys`. -/
def transformArrItems : List Json → List Json
  | [] => []
  | j :: rest => _transform_keys j :: transformArrItems rest

end

/-! ## Realtime stream client (`_websocket.py`) -/

/-- An event handler as the emitter observes it: an identifier plus its
behaviour on the dispatched message (`none` = returns normally,
`some text` = raises an exception carrying that text). -/
structure Handler where
  id : Nat
  run : Json → Option String

/-- The `for callback in self._listeners.get(event, []):` loop of
`_EventEmitter._emit`, with its per-callback `try/except` that logs the
exception and continues.  Returns the ids of the handlers invoked, in
order, and the ids whose exception was caught and logged. -/
def emitRun : List Handler → Json → List Nat × List Nat
  | [], _ => ([], [])
  | h :: rest, arg =>
    let tail := emitRun rest arg
    match h.run arg with
    | none => (h.id :: tail.1, tail.2)
    | some _ => (h.id :: tail.1, h.id :: tail.2)

/-- `_EventEmitter._emit(event, *args)`.  The function always returns (every
handler exception is swallowed by the `except` clause); its result type
carries no exception case by construction of that translation. -/
def _emit (listeners : String → List Handler) (event : String) (arg : Json) :
    List Nat × List Nat :=
  emitRun (listeners event) arg

/-- The `type` discriminators `_handle_message` dispatches; every other
inbound message is dropped. -/
def handledTypes : List String :=
  ["connected", "market_update", "market_snapshot",
   "subscribed", "unsubscribed", "error"]

/-- `PropheseerWebSocket._handle_message(message)`:
`msg_type = message.get("type", "")`, dispatch when it is one of the six
known channel names, silently drop otherwise (also when the value is not a
string, which can never equal one of the six names). -/
def _handle_message (listeners : String → List Handler)
    (message : List (String × Json)) : List Nat × List Nat :=
  match (dictGet message "type").getD (.str "") with
  | .str t => if t ∈ handledTypes then _emit listeners t (.obj message) else ([], [])
  | _ => ([], [])

/-- The mutable attributes of `PropheseerWebSocket` the reconnect logic
reads and writes.  The subscription set is a finite set of market-id
strings. -/
structure WSState where
  closed : Bool
  reconnect_attempts : Nat
  max_reconnect_attempts : Nat
  subscribed_markets : Finset String
deriving DecidableEq

/-- Observable actions of the stream client, in program order. -/
inductive WSAction where
  | emit_reconnect (attempt : Nat)
  | emit_error
  | sleep (seconds : ℚ)
  | connect_call
  | frame_subscribe (markets : Finset String)
  | frame_unsubscribe (markets : Finset String)
deriving DecidableEq

/-- `subscribe(market_ids)`: add every id to the subscription set, then
best-effort send the control frame (`_send` silently drops it when there is
no live connection). -/
def subscribe (connected : Bool) (market_ids : Finset String) (s : WSState) :
    WSState × List WSAction :=
  ({ s with subscribed_markets := s.subscribed_markets ∪ market_ids },
   if connected then [.frame_subscribe market_ids] else [])

/-- `unsubscribe(market_ids)`: discard every id, then best-effort send. -/
def unsubscribe (connected : Bool) (market_ids : Finset String) (s : WSState) :
    WSState × List WSAction :=
  ({ s with subscribed_markets := s.subscribed_markets \ market_ids },
   if connected then [.frame_unsubscribe market_ids] else [])

/-- `PropheseerWebSocket._attempt_reconnect`, abstracted over whether the
`connect()` it issues establishes a connection (`connect_ok`).  Guard on the
attempt budget (emitting a final error when it is exhausted), else
increment the counter, compute `min(1.0 * 2**(attempts-1), 30.0)`, emit
`reconnect` with the attempt number, sleep, bail out if the client was
closed meanwhile, then call `connect()`.  A successful `connect()` resets
the counter to 0 (in the connection thread), and the replay
`self.subscribe(list(self._subscribed_markets))` runs only when the set is
nonempty (`if self._subscribed_markets:`); a failing `connect()` is
swallowed (`except Exception: pass`). -/
def _attempt_reconnect (connect_ok : Bool) (s : WSState) :
    WSState × List WSAction :=
  if s.max_reconnect_attempts ≤ s.reconnect_attempts then
    (s, [.emit_error])
  else
    let attempts := s.reconnect_attempts + 1
    let delay : ℚ := min ((2 : ℚ) ^ (attempts - 1)) 30
    let s1 := { s with reconnect_attempts := attempts }
    if s1.closed then
      (s1, [.emit_reconnect attempts, .sleep delay])
    else if connect_ok then
      let s2 := { s1 with reconnect_attempts := 0 }
      if s2.subscribed_markets = ∅ then
        (s2, [.emit_reconnect attempts, .sleep delay, .connect_call])
      else
        let sub := subscribe true s2.subscribed_markets s2
        (sub.1, [.emit_reconnect attempts, .sleep delay, .connect_call] ++ sub.2)
    else
      (s1, [.emit_reconnect attempts, .sleep delay, .connect_call])

end Propheseer

namespace Propheseer

theorem map_status_message (s : Int) (b : List (String × Json)) (h : Headers) :
    (_map_status_to_error s b h).message =
      pyOr (dictGet b "error")
        (pyOr (dictGet b "message") (.str ("API error: " ++ toString s))) := by
  unfold _map_status_to_error
  repeat first
    | rfl
    | split

theorem map_status_headers (s : Int) (b : List (String × Json)) (h : Headers) :
    (_map_status_to_error s b h).headers = some h := by
  unfold _map_status_to_error
  repeat first
    | rfl
    | split

/-- C4: the error mapper sends 401 to Authentication, 402 to
InsufficientCredits (reading `balanceCents`/`requiredCents`), 403 to
PermissionDenied (reading `code`/`requiredPlan`), 404 to NotFound, 429 to
RateLimit (reading `retryAfter`), status ≥ 500 to InternalServer preserving
the status, and anything else to Generic preserving status and optional
code; the message is the truthy `error` value, else the truthy `message`
value, else `"API error: {status}"`; every variant carries the response
headers; and the concrete 403 round-trip holds.  (Purity, totality and
determinism hold because `_map_status_to_error` is a Lean function.) -/
theorem claim_C4_error_taxonomy_mapper :
    (∀ (b : List (String × Json)) (h : Headers),
      ((_map_status_to_error 401 b h).kind = .authentication ∧
        (_map_status_to_error 401 b h).status = some 401) ∧
      ((_map_status_to_error 402 b h).kind = .insufficientCredits ∧
        (_map_status_to_error 402 b h).balance_cents = dictGet b "balanceCents" ∧
        (_map_status_to_error 402 b h).required_cents = dictGet b "requiredCents") ∧
      ((_map_status_to_error 403 b h).kind = .permissionDenied ∧
        (_map_status_to_error 403 b h).required_plan = dictGet b "requiredPlan" ∧
        (_map_status_to_error 403 b h).code =
          some (pyOr (dictGet b "code") (.str "FORBIDDEN"))) ∧
      ((_map_status_to_error 404 b h).kind = .notFound) ∧
      ((_map_status_to_error 429 b h).kind = .rateLimit ∧
        (_map_status_to_error 429 b h).retry_after = dictGet b "retryAfter")) ∧
    (∀ (s : Int) (b : List (String × Json)) (h : Headers), 500 ≤ s →
      (_map_status_to_error s b h).kind = .internalServer ∧
      (_map_status_to_error s b h).status = some s) ∧
    (∀ (s : Int) (b : List (String × Json)) (h : Headers),
      s ∉ ([401, 402, 403, 404, 429] : List Int) → s < 500 →
      (_map_status_to_error s b h).kind = .generic ∧
      (_map_status_to_error s b h).status = some s ∧
      (_map_status_to_error s b h).code = dictGet b "code") ∧
    (∀ (s : Int) (b : List (String × Json)) (h : Headers),
      (_map_status_to_error s b h).headers = some h) ∧
    (∀ (s : Int) (b : List (String × Json)) (h : Headers) (v : Json),
      dictGet b "error" = some v → v.truthy = true →
      (_map_status_to_error s b h).message = v) ∧
    (∀ (s : Int) (b : List (String × Json)) (h : Headers) (v : Json),
      (∀ w, dictGet b "error" = some w → w.truthy = false) →
      dictGet b "message" = some v → v.truthy = true →
      (_map_status_to_error s b h).message = v) ∧
    (∀ (s : Int) (b : List (String × Json)) (h : Headers),
      (∀ w, dictGet b "error" = some w → w.truthy = false) →
      (∀ w, dictGet b "message" = some w → w.truthy = false) →
      (_map_status_to_error s b h).message =
        .str ("API error: " ++ toString s)) ∧
    ((_map_status_to_error 403
        [("error", .str "x"), ("requiredPlan", .str "pro")] []).kind =
          .permissionDenied ∧
      (_map_status_to_error 403
        [("error", .str "x"), ("requiredPlan", .str "pro")] []).required_plan =
          some (.str "pro") ∧
      (_map_status_to_error 403
        [("error", .str "x"), ("requiredPlan", .str "pro")] []).status =
          some 403) := by
  have hmsg := map_status_message
  refine ⟨fun b h => ?_, fun s b h hs => ?_, fun s b h hmem hlt => ?_,
    map_status_headers, fun s b h v he hv => ?_, fun s b h v he hm hv => ?_,
    fun s b h he hm => ?_, ?_⟩
  · refine ⟨⟨rfl, rfl⟩, ⟨rfl, ?_, ?_⟩, ⟨rfl, ?_, ?_⟩, rfl, rfl, ?_⟩ <;>
      simp [_map_status_to_error, InsufficientCreditsError,
        PermissionDeniedError, RateLimitError]
  · have h401 : s ≠ 401 := by omega
    have h402 : s ≠ 402 := by omega
    have h403 : s ≠ 403 := by omega
    have h404 : s ≠ 404 := by omega
    have h429 : s ≠ 429 := by omega
    constructor <;>
      simp [_map_status_to_error, h401, h402, h403, h404, h429, hs,
        InternalServerError, pyOrInt, show s ≠ 0 by omega]
  · simp only [List.mem_cons, List.not_mem_nil, or_false, not_or] at hmem
    obtain ⟨h401, h402, h403, h404, h429⟩ := hmem
    have h500 : ¬ (500 ≤ s) := by omega
    refine ⟨?_, ?_, ?_⟩ <;>
      simp [_map_status_to_error, h401, h402, h403, h404, h429, h500,
        mkPropheseerError]
  · rw [hmsg, he]
    simp [pyOr, hv]
  · rw [hmsg]
    match hw : dictGet b "error" with
    | some w => simp [pyOr, he w hw, hm, hv]
    | none => simp [pyOr, hm, hv]
  · rw [hmsg]
    match hw : dictGet b "error" with
    | some w =>
      match hw2 : dictGet b "message" with
      | some w2 => simp [pyOr, he w hw, hm w2 hw2]
      | none => simp [pyOr, he w hw]
    | none =>
      match hw2 : dictGet b "message" with
      | some w2 => simp [pyOr, hm w2 hw2]
      | none => simp [pyOr]
  · refine ⟨rfl, ?_, rfl⟩
    simp [_map_status_to_error, PermissionDeniedError, dictGet]

/-- C4 witness: a 503 maps to InternalServer preserving status 503, and a
418 (outside the enumerated codes) maps to Generic with status 418 and no
code; a body with a truthy `error` value determines the message. -/
theorem claim_C4_witness :
    ((_map_status_to_error 503 [] []).kind = .internalServer ∧
      (_map_status_to_error 503 [] []).status = some 503) ∧
    ((_map_status_to_error 418 [] []).kind = .generic ∧
      (_map_status_to_error 418 [] []).status = some 418 ∧
      (_map_status_to_error 418 [] []).code = dictGet [] "code") ∧
    (_map_status_to_error 404 [("error", .str "gone")] []).message =
      .str "gone" :=
  ⟨claim_C4_error_taxonomy_mapper.2.1 503 [] [] (by norm_num),
   claim_C4_error_taxonomy_mapper.2.2.1 418 [] [] (by decide) (by norm_num),
   claim_C4_error_taxonomy_mapper.2.2.2.2.1 404 [("error", .str "gone")] []
     (.str "gone") rfl rfl⟩

theorem hGetInt_error (h : Headers) (name : String) (e : String)
    (he : hGetInt h name = .error e) :
    ∃ s, hGet h name = some s ∧ pyIntRead s = none := by
  unfold hGetInt at he
  cases hv : hGet h name with
  | none => rw [hv] at he; exact Except.noConfusion he
  | some s =>
    cases hi : pyIntRead s with
    | some n =>
      rw [hv] at he
      simp only [pyInt, hi, Except.map] at he
      exact Except.noConfusion he
    | none => exact ⟨s, rfl, hi⟩

theorem parse_credits_fields_ne_ok_none (h : Headers) (plan bt : String) :
    parse_credits_fields h plan bt ≠ .ok none := by
  unfold parse_credits_fields
  cases h1 : hGetInt h "x-credit-balance-cents" with
  | error e => simp
  | ok v1 =>
    cases h2 : hGetInt h "x-request-cost-cents" with
    | error e => simp
    | ok v2 => simp

theorem parse_subscription_fields_ne_ok_none (h : Headers) (plan bt : String) :
    parse_subscription_fields h plan bt ≠ .ok none := by
  unfold parse_subscription_fields
  cases h1 : hGetInt h "x-ratelimit-limit-day" with
  | error e => simp
  | ok v1 =>
    cases h2 : hGetInt h "x-ratelimit-remaining-day" with
    | error e => simp
    | ok v2 =>
      cases h3 : hGetInt h "x-ratelimit-limit-minute" with
      | error e => simp
      | ok v3 =>
        cases h4 : hGetInt h "x-ratelimit-remaining-minute" with
        | error e => simp
        | ok v4 => simp

theorem parse_ne_ok_none (h : Headers) (p : String)
    (hp : hGet h "x-ratelimit-plan" = some p) (hne : p ≠ "") :
    parse_rate_limit_headers h ≠ .ok none := by
  unfold parse_rate_limit_headers
  simp only [hp]
  unfold parse_with_plan
  rw [if_neg hne]
  split
  · exact parse_credits_fields_ne_ok_none h p _
  · exact parse_subscription_fields_ne_ok_none h p _

theorem parse_subscription_fields_billing (h : Headers) (plan bt : String)
    (info : RateLimitInfo)
    (hok : parse_subscription_fields h plan bt = .ok (some info)) :
    info.billing_type = bt := by
  unfold parse_subscription_fields at hok
  cases h1 : hGetInt h "x-ratelimit-limit-day" with
  | error e => rw [h1] at hok; exact Except.noConfusion hok
  | ok v1 =>
    rw [h1] at hok
    cases h2 : hGetInt h "x-ratelimit-remaining-day" with
    | error e => rw [h2] at hok; exact Except.noConfusion hok
    | ok v2 =>
      rw [h2] at hok
      cases h3 : hGetInt h "x-ratelimit-limit-minute" with
      | error e => rw [h3] at hok; exact Except.noConfusion hok
      | ok v3 =>
        rw [h3] at hok
        cases h4 : hGetInt h "x-ratelimit-remaining-minute" with
        | error e => rw [h4] at hok; exact Except.noConfusion hok
        | ok v4 =>
          rw [h4] at hok
          simp only [Except.ok.injEq, Option.some.injEq] at hok
          rw [← hok]

theorem parse_credits_fields_error (h : Headers) (plan bt e : String)
    (herr : parse_credits_fields h plan bt = .error e) :
    ∃ name s, name ∈ numericRateLimitHeaderNames ∧
      hGet h name = some s ∧ pyIntRead s = none := by
  unfold parse_credits_fields at herr
  cases h1 : hGetInt h "x-credit-balance-cents" with
  | error e1 =>
    obtain ⟨s, hs, hi⟩ := hGetInt_error h _ e1 h1
    exact ⟨_, s, by simp [numericRateLimitHeaderNames], hs, hi⟩
  | ok v1 =>
    rw [h1] at herr
    cases h2 : hGetInt h "x-request-cost-cents" with
    | error e2 =>
      obtain ⟨s, hs, hi⟩ := hGetInt_error h _ e2 h2
      exact ⟨_, s, by simp [numericRateLimitHeaderNames], hs, hi⟩
    | ok v2 => rw [h2] at herr; exact Except.noConfusion herr

theorem parse_subscription_fields_error (h : Headers) (plan bt e : String)
    (herr : parse_subscription_fields h plan bt = .error e) :
    ∃ name s, name ∈ numericRateLimitHeaderNames ∧
      hGet h name = some s ∧ pyIntRead s = none := by
  unfold parse_subscription_fields at herr
  cases h1 : hGetInt h "x-ratelimit-limit-day" with
  | error e1 =>
    obtain ⟨s, hs, hi⟩ := hGetInt_error h _ e1 h1
    exact ⟨_, s, by simp [numericRateLimitHeaderNames], hs, hi⟩
  | ok v1 =>
    rw [h1] at herr
    cases h2 : hGetInt h "x-ratelimit-remaining-day" with
    | error e2 =>
      obtain ⟨s, hs, hi⟩ := hGetInt_error h _ e2 h2
      exact ⟨_, s, by simp [numericRateLimitHeaderNames], hs, hi⟩
    | ok v2 =>
      rw [h2] at herr
      cases h3 : hGetInt h "x-ratelimit-limit-minute" with
      | error e3 =>
        obtain ⟨s, hs, hi⟩ := hGetInt_error h _ e3 h3
        exact ⟨_, s, by simp [numericRateLimitHeaderNames], hs, hi⟩
      | ok v3 =>
        rw [h3] at herr
        cases h4 : hGetInt h "x-ratelimit-remaining-minute" with
        | error e4 =>
          obtain ⟨s, hs, hi⟩ := hGetInt_error h _ e4 h4
          exact ⟨_, s, by simp [numericRateLimitHeaderNames], hs, hi⟩
        | ok v4 => rw [h4] at herr; exact Except.noConfusion herr

/-- C3: with `auth = true` and no configured credential (no explicit key, no
environment fallback, so the resolved key is `None`), `_request` fails
immediately with an Authentication error and issues zero network calls, for
every retry budget and every network behaviour: the retry loop is never
entered. -/
theorem claim_C3_no_credential_fails_immediately :
    ∀ (max_retries : Nat) (net : Nat → NetOutcome),
      (_request none true max_retries net).2 = 0 ∧
      ∃ e : PropheseerError,
        (_request none true max_retries net).1 = .error (.api e) ∧
        e.kind = .authentication ∧ e.status = some 401 := by
  intro mr net
  exact ⟨rfl, ⟨AuthenticationError
    (.str ("API key is required. Pass it to the constructor " ++
      "or set the PROPHESEER_API_KEY environment variable.")) none,
    rfl, rfl, rfl⟩⟩

/-- C2 (amended): the rate-limit parser returns absent exactly when the plan
header is missing or present but empty; billing mode defaults to
`subscription` when the billing-type header is unspecified; a missing
optional field never raises (every raise exhibits a present malformed
numeric header); but when a present numeric field is malformed the raised
`ValueError` propagates out of `_request`, so a request whose HTTP status
was successful does NOT complete successfully for the caller. -/
theorem claim_C2_rate_limit_parser_amended :
    (∀ h : Headers, parse_rate_limit_headers h = .ok none ↔
      (hGet h "x-ratelimit-plan" = none ∨ hGet h "x-ratelimit-plan" = some "")) ∧
    (∀ (h : Headers) (info : RateLimitInfo),
      parse_rate_limit_headers h = .ok (some info) →
      hGet h "x-billing-type" = none → info.billing_type = "subscription") ∧
    (∀ (h : Headers) (e : String), parse_rate_limit_headers h = .error e →
      ∃ name s, name ∈ numericRateLimitHeaderNames ∧
        hGet h name = some s ∧ pyIntRead s = none) ∧
    (∀ (key : String) (body : Json) (h : Headers) (e : String)
      (max_retries : Nat), key ≠ "" → parse_rate_limit_headers h = .error e →
      _request (some key) true max_retries (fun _ => .success body h) =
        (.error (.pyExc e), 1)) := by
  refine ⟨fun h => ?_, fun h info hok hb => ?_, fun h e herr => ?_,
    fun key body h e mr hk hp => ?_⟩
  · constructor
    · intro hok
      cases hp : hGet h "x-ratelimit-plan" with
      | none => exact .inl rfl
      | some p =>
        by_cases hne : p = ""
        · exact .inr (by rw [hne])
        · exact absurd hok (parse_ne_ok_none h p hp hne)
    · intro hcase
      unfold parse_rate_limit_headers
      rcases hcase with hp | hp <;> simp only [hp]
      unfold parse_with_plan
      rw [if_pos rfl]
  · unfold parse_rate_limit_headers at hok
    cases hp : hGet h "x-ratelimit-plan" with
    | none => rw [hp] at hok; simp at hok
    | some p =>
      rw [hp] at hok
      replace hok : parse_with_plan h p
          ((hGet h "x-billing-type").getD "subscription") = .ok (some info) := hok
      rw [hb] at hok
      simp only [Option.getD_none] at hok
      unfold parse_with_plan at hok
      by_cases hne : p = ""
      · rw [if_pos hne] at hok
        simp at hok
      · rw [if_neg hne] at hok
        rw [if_neg (by decide : ¬ ("subscription" = "credits"))] at hok
        exact parse_subscription_fields_billing h p _ info hok
  · unfold parse_rate_limit_headers at herr
    cases hp : hGet h "x-ratelimit-plan" with
    | none => rw [hp] at herr; exact Except.noConfusion herr
    | some p =>
      rw [hp] at herr
      replace herr : parse_with_plan h p
          ((hGet h "x-billing-type").getD "subscription") = .error e := herr
      unfold parse_with_plan at herr
      by_cases hne : p = ""
      · rw [if_pos hne] at herr; exact Except.noConfusion herr
      · rw [if_neg hne] at herr
        split at herr
        · exact parse_credits_fields_error h p _ e herr
        · exact parse_subscription_fields_error h p _ e herr
  · unfold _request
    have ht : truthyStr (some key) = true := by simp [truthyStr, hk]
    rw [ht]
    simp only [Bool.not_true, Bool.and_false, Bool.false_eq_true,
      if_false]
    simp [requestLoop, hp]

/-- C2 counterexample: a present-but-empty plan header still yields absent
(so "absent exactly when the plan header is missing" fails), and a present
malformed numeric header makes a successful HTTP response surface to the
caller as an uncaught `ValueError`, not a success. -/
theorem claim_C2_counterexample :
    (parse_rate_limit_headers [("x-ratelimit-plan", "")] = .ok none ∧
      hGet [("x-ratelimit-plan", "")] "x-ratelimit-plan" = some "") ∧
    _request (some "k") true 0
      (fun _ => .success (.obj [])
        [("x-ratelimit-plan", "pro"), ("x-ratelimit-limit-day", "abc")]) =
      (.error (.pyExc "invalid literal for int() with base 10: abc"), 1) :=
  ⟨⟨rfl, rfl⟩, rfl⟩

/-- C2 witness: a subscription response with a well-formed numeric header
parses, defaulting the billing mode to `subscription`. -/
theorem claim_C2_witness :
    ∃ info : RateLimitInfo,
      parse_rate_limit_headers
        [("x-ratelimit-plan", "pro"), ("x-ratelimit-limit-day", "5")] =
        .ok (some info) ∧ info.billing_type = "subscription" :=
  ⟨{ plan := "pro", limit_day := some 5 },
    rfl,
    claim_C2_rate_limit_parser_amended.2.1
      [("x-ratelimit-plan", "pro"), ("x-ratelimit-limit-day", "5")]
      { plan := "pro", limit_day := some 5 } rfl rfl⟩

/-- C1: `_is_retryable c` holds iff `c = 429` or `c ≥ 500` (in particular it is
false on 200–399, 400–404 and 422); the retry delay equals `retry_after`
verbatim when the last error is a rate-limit error carrying a (truthy)
`retry_after`, and otherwise equals `0.5 * 2^(attempt-1)` plus a jitter
in `[0, 0.25 * 2^(attempt-1))`, with every jitter value in that interval
realized by some draw `u ∈ [0, 1)`. -/
theorem claim_C1_retry_predicate_and_delay :
    (∀ c : Int, _is_retryable c = true ↔ (c = 429 ∨ 500 ≤ c)) ∧
    (∀ c : Int, (200 ≤ c ∧ c ≤ 399) ∨ (400 ≤ c ∧ c ≤ 404) ∨ c = 422 →
      _is_retryable c = false) ∧
    (∀ (a : Nat) (e : LastErrorInfo) (v : Int) (u : ℚ),
      e.is_rate_limit = true → e.retry_after = some v → v ≠ 0 →
      _get_retry_delay a (some e) u = (v : ℚ)) ∧
    (∀ (a : Nat) (le : Option LastErrorInfo) (u : ℚ), 1 ≤ a → 0 ≤ u → u < 1 →
      (∀ e v, le = some e → e.retry_after = some v → e.is_rate_limit = true → v = 0) →
      ∃ j : ℚ, _get_retry_delay a le u = (1/2) * 2 ^ (a - 1) + j ∧
        0 ≤ j ∧ j < (1/4) * 2 ^ (a - 1)) ∧
    (∀ (a : Nat) (j : ℚ), 1 ≤ a → 0 ≤ j → j < (1/4) * 2 ^ (a - 1) →
      ∃ u : ℚ, 0 ≤ u ∧ u < 1 ∧
        _get_retry_delay a none u = (1/2) * 2 ^ (a - 1) + j) := by
  have hpow : ∀ a : Nat, (0 : ℚ) < (1/4) * 2 ^ (a - 1) := by
    intro a; positivity
  refine ⟨fun c => ?_, fun c h => ?_, fun a e v u h1 h2 h3 => ?_,
    fun a le u _ hu0 hu1 hrl => ?_, fun a j _ hj0 hj1 => ?_⟩
  · simp [_is_retryable]
  · have : ¬ (c = 429 ∨ 500 ≤ c) := by omega
    simpa [_is_retryable] using this
  · simp only [_get_retry_delay, h2, h1, bne, true_and]
    simp [h3]
  · refine ⟨u * ((1/4) * 2 ^ (a - 1)), ?_, by positivity, ?_⟩
    · match le with
      | none => simp only [_get_retry_delay]; ring
      | some e =>
        match he : e.retry_after with
        | none => simp only [_get_retry_delay, he]; ring
        | some v =>
          simp only [_get_retry_delay, he]
          by_cases hb : e.is_rate_limit = true
          · have : v = 0 := hrl e v rfl he hb
            simp only [this, bne_self_eq_false, Bool.and_false]
            rw [if_neg (by simp)]
            ring
          · simp only [Bool.not_eq_true] at hb
            simp only [hb, Bool.false_and]
            rw [if_neg (by simp)]
            ring
    · calc u * ((1/4) * 2 ^ (a - 1)) < 1 * ((1/4) * 2 ^ (a - 1)) := by
            exact mul_lt_mul_of_pos_right hu1 (hpow a)
        _ = (1/4) * 2 ^ (a - 1) := one_mul _
  · refine ⟨j / ((1/4) * 2 ^ (a - 1)), by positivity, ?_, ?_⟩
    · exact (div_lt_one (hpow a)).mpr hj1
    · simp only [_get_retry_delay]
      field_simp
      ring

/-- C1 witness: a rate-limit error carrying `retry_after = 30` makes the
next delay exactly 30 seconds, and a plain first retry with `u = 1/2`
has the jittered backoff shape. -/
theorem claim_C1_witness :
    _get_retry_delay 2 (some ⟨true, some 30⟩) 0 = (30 : ℚ) ∧
    (∃ j : ℚ, _get_retry_delay 1 none (1/2) = (1/2) * 2 ^ (1 - 1) + j ∧
      0 ≤ j ∧ j < (1/4) * 2 ^ (1 - 1)) :=
  ⟨claim_C1_retry_predicate_and_delay.2.2.1 2 ⟨true, some 30⟩ 30 0 rfl rfl (by decide),
   claim_C1_retry_predicate_and_delay.2.2.2.1 1 none (1/2) (by decide)
     (by norm_num) (by norm_num) (fun e v h => by cases h)⟩

theorem consumeItems_cap_inactive {α : Type} (m : Option Nat)
    (hm : capActive m = false) :
    ∀ (l : List α) (y : Nat), consumeItems m y l = (l, y + l.length, false) := by
  intro l
  induction l with
  | nil => intro y; simp [consumeItems]
  | cons a t ih =>
    intro y
    simp only [consumeItems, hm, Bool.false_and]
    rw [if_neg (by simp)]
    rw [ih (y + 1)]
    simp only [List.length_cons, Prod.mk.injEq, true_and, and_true]
    omega

theorem consumeItems_count {α : Type} (m : Option Nat) :
    ∀ (l : List α) (y : Nat),
      (consumeItems m y l).2.1 = y + (consumeItems m y l).1.length := by
  intro l
  induction l with
  | nil => intro y; simp [consumeItems]
  | cons a t ih =>
    intro y
    simp only [consumeItems]
    split
    · simp
    · have := ih (y + 1)
      simp only [List.length_cons]
      omega

theorem consumeItems_cap_le {α : Type} (k : Nat) (hk : 0 < k) :
    ∀ (l : List α) (y : Nat), y < k →
      (consumeItems (some k) y l).1.length + y ≤ k := by
  intro l
  induction l with
  | nil => intro y hy; simp [consumeItems]; omega
  | cons a t ih =>
    intro y hy
    simp only [consumeItems]
    split
    · simp
      omega
    · rename_i hcond
      have hlt : y + 1 < k := by
        by_contra hge
        exact hcond (by simp [capActive]; omega)
      have := ih (y + 1) hlt
      simp only [List.length_cons]
      omega

theorem consumeItems_not_stopped {α : Type} (k : Nat) (hk : 0 < k) :
    ∀ (l : List α) (y : Nat), l ≠ [] →
      (consumeItems (some k) y l).2.2 = false →
      (consumeItems (some k) y l).2.1 < k := by
  intro l
  induction l with
  | nil => intro y h _; exact absurd rfl h
  | cons a t ih =>
    intro y _ hst
    simp only [consumeItems] at hst ⊢
    by_cases hcond : (capActive (some k) && decide ((some k).getD 0 ≤ y + 1)) = true
    · rw [if_pos hcond] at hst
      simp at hst
    · rw [if_neg hcond] at hst ⊢
      have hlt : y + 1 < k := by
        by_contra hge
        exact hcond (by simp [capActive]; omega)
      by_cases ht : t = []
      · subst ht
        exact hlt
      · exact ih (y + 1) ht hst

theorem autoPaginateGo_cap_le {α : Type} (fetch : Int → Page α) (k : Nat)
    (hk : 0 < k) :
    ∀ (fuel : Nat) (start : Int) (y : Nat) (res : List α × Nat), y < k →
      autoPaginateGo fetch (some k) fuel start y = some res →
      res.1.length + y ≤ k := by
  intro fuel
  induction fuel with
  | zero => intro start y res _ h; exact Option.noConfusion h
  | succ fuel ih =>
    intro start y res hy h
    simp only [autoPaginateGo] at h
    split at h
    · simp only [Option.some.injEq] at h
      rw [← h]
      exact consumeItems_cap_le k hk (fetch start).data y hy
    · split at h
      · simp only [Option.some.injEq] at h
        rw [← h]
        exact consumeItems_cap_le k hk (fetch start).data y hy
      · rename_i hstop hterm
        cases hgo : autoPaginateGo fetch (some k) fuel
            ((fetch start).meta.offset + (fetch start).meta.limit)
            (consumeItems (some k) y (fetch start).data).2.1 with
        | none => rw [hgo] at h; exact Option.noConfusion h
        | some pr =>
          rw [hgo] at h
          simp only [Option.map_some', Option.some.injEq] at h
          rw [← h]
          have hdne : (fetch start).data ≠ [] := by
            intro hempty
            apply hterm
            simp [hempty]
          have hns := consumeItems_not_stopped k hk (fetch start).data y hdne
            (by simpa using hstop)
          have hcount := consumeItems_count (some k) (fetch start).data y
          have hrec := ih _ _ pr hns hgo
          simp only [List.length_append]
          omega

theorem chainOffset_shift {α : Type} (fetch : Int → Page α) (start : Int) :
    ∀ k, chainOffset fetch start (k + 1) =
      chainOffset fetch (chainOffset fetch start 1) k := by
  intro k
  induction k with
  | zero => rfl
  | succ k ih =>
    show (fetch (chainOffset fetch start (k + 1))).meta.offset +
        (fetch (chainOffset fetch start (k + 1))).meta.limit = _
    rw [ih]
    rfl

theorem stopsAt_shift {α : Type} (fetch : Int → Page α) (start : Int) (k : Nat) :
    stopsAt fetch start (k + 1) ↔
      stopsAt fetch (chainOffset fetch start 1) k := by
  unfold stopsAt
  rw [chainOffset_shift]

theorem flatMap_map_succ {β : Type} (f : Nat → List β) :
    ∀ l : List Nat, (l.map Nat.succ).flatMap f = l.flatMap (fun j => f (j + 1)) := by
  intro l
  induction l with
  | nil => rfl
  | cons a t ih => simp [ih, Nat.succ_eq_add_one]

theorem range_flatMap_succ {β : Type} (n : Nat) (f : Nat → List β) :
    (List.range (n + 1)).flatMap f =
      f 0 ++ (List.range n).flatMap (fun j => f (j + 1)) := by
  rw [List.range_succ_eq_map, List.flatMap_cons, flatMap_map_succ]

theorem autoPaginateGo_flatten {α : Type} (fetch : Int → Page α) :
    ∀ (n fuel : Nat) (start : Int) (y : Nat), n + 1 ≤ fuel →
      (∀ j, j < n → ¬ stopsAt fetch start j) → stopsAt fetch start n →
      autoPaginateGo fetch none fuel start y =
        some ((List.range (n + 1)).flatMap
          (fun j => (fetch (chainOffset fetch start j)).data), n + 1) := by
  intro n
  induction n with
  | zero =>
    intro fuel start y hfuel _ hstop
    match fuel, hfuel with
    | fuel + 1, _ =>
      simp only [autoPaginateGo]
      rw [consumeItems_cap_inactive none rfl]
      rw [if_neg (by simp)]
      have hcond : (!(fetch start).meta.has_more ||
          (fetch start).data.isEmpty) = true := by
        rcases hstop with hmore | hdata
        · have hmore2 : (fetch start).meta.has_more = false := hmore
          simp [hmore2]
        · have hdata2 : (fetch start).data = [] := hdata
          simp [hdata2]
      rw [if_pos hcond]
      simp [List.range_succ, chainOffset]
  | succ n ih =>
    intro fuel start y hfuel hno hstop
    match fuel, hfuel with
    | fuel + 1, hfuel =>
      simp only [autoPaginateGo]
      rw [consumeItems_cap_inactive none rfl]
      rw [if_neg (by simp)]
      have h0 : ¬ stopsAt fetch start 0 := hno 0 (Nat.succ_pos n)
      have hmore : (fetch start).meta.has_more = true := by
        by_contra hh
        exact h0 (Or.inl (by
          show (fetch start).meta.has_more = false
          revert hh
          cases (fetch start).meta.has_more <;> simp))
      have hne : (fetch start).data ≠ [] := fun hh => h0 (Or.inr hh)
      have hc2 : (!(fetch start).meta.has_more ||
          (fetch start).data.isEmpty) = false := by
        cases hdata : (fetch start).data with
        | nil => exact absurd hdata hne
        | cons b t => simp [hmore, hdata]
      rw [if_neg (by simp [hc2])]
      have hrec := ih fuel (chainOffset fetch start 1)
        (y + (fetch start).data.length)
        (by omega)
        (fun j hj => by
          have hj2 := hno (j + 1) (by omega)
          rw [stopsAt_shift] at hj2
          exact hj2)
        (by rw [← stopsAt_shift]; exact hstop)
      rw [show chainOffset fetch start 1 =
        (fetch start).meta.offset + (fetch start).meta.limit from rfl] at hrec
      rw [hrec]
      simp only [Option.map_some', Option.some.injEq]
      have hitems : (fetch start).data ++
          (List.range (n + 1)).flatMap (fun j =>
            (fetch (chainOffset fetch
              ((fetch start).meta.offset + (fetch start).meta.limit) j)).data) =
          (List.range (n + 1 + 1)).flatMap
            (fun j => (fetch (chainOffset fetch start j)).data) := by
        conv_rhs => rw [range_flatMap_succ]
        congr 1
        · congr 1
          funext j
          rw [chainOffset_shift]
          rfl
      rw [hitems]

theorem chainOffset_zero {α : Type} (fetch : Int → Page α) (start : Int) :
    chainOffset fetch start 0 = start := rfl

theorem chainCount_zero {α : Type} (fetch : Int → Page α) (start : Int) :
    chainCount fetch start 0 = 0 := rfl

theorem chainCount_one {α : Type} (fetch : Int → Page α) (start : Int) :
    chainCount fetch start 1 = (fetch start).data.length := by
  show chainCount fetch start 0 +
    (fetch (chainOffset fetch start 0)).data.length = _
  simp [chainCount_zero, chainOffset_zero]

theorem chainCount_shift {α : Type} (fetch : Int → Page α) (start : Int) :
    ∀ j, chainCount fetch start (j + 1) =
      (fetch start).data.length +
        chainCount fetch (chainOffset fetch start 1) j := by
  intro j
  induction j with
  | zero => simp [chainCount_one, chainCount_zero]
  | succ j ih =>
    show chainCount fetch start (j + 1) +
      (fetch (chainOffset fetch start (j + 1))).data.length = _
    rw [ih, chainOffset_shift fetch start j]
    show _ = (fetch start).data.length +
      (chainCount fetch (chainOffset fetch start 1) j +
        (fetch (chainOffset fetch (chainOffset fetch start 1) j)).data.length)
    omega

theorem chainCount_le {α : Type} (fetch : Int → Page α) (start : Int) :
    ∀ {a b : Nat}, a ≤ b →
      chainCount fetch start a ≤ chainCount fetch start b := by
  intro a b h
  induction b with
  | zero =>
    have ha : a = 0 := by omega
    subst ha
    exact Nat.le_refl _
  | succ b ih =>
    by_cases hab : a ≤ b
    · exact Nat.le_trans (ih hab) (Nat.le_add_right _ _)
    · have ha : a = b + 1 := by omega
      subst ha
      exact Nat.le_refl _

theorem consumeItems_cap_hit {α : Type} (k : Nat) (hk : 0 < k) :
    ∀ (l : List α) (y : Nat), y < k → k ≤ y + l.length →
      consumeItems (some k) y l = (l.take (k - y), k, true) := by
  intro l
  induction l with
  | nil =>
    intro y hy hlen
    simp only [List.length_nil] at hlen
    omega
  | cons a t ih =>
    intro y hy hlen
    simp only [consumeItems]
    by_cases hket : k ≤ y + 1
    · rw [if_pos (by simp [capActive]; omega)]
      have hk1 : k = y + 1 := by omega
      have hky : k - y = 1 := by omega
      rw [hky, hk1]
      simp
    · rw [if_neg (by simp [capActive]; omega)]
      rw [ih (y + 1) (by omega)
        (by simp only [List.length_cons] at hlen; omega)]
      have hky : k - y = (k - (y + 1)) + 1 := by omega
      rw [hky, List.take_succ_cons]

theorem consumeItems_cap_not_hit {α : Type} (k : Nat) :
    ∀ (l : List α) (y : Nat), y + l.length < k →
      consumeItems (some k) y l = (l, y + l.length, false) := by
  intro l
  induction l with
  | nil => intro y h; simp [consumeItems]
  | cons a t ih =>
    intro y h
    simp only [List.length_cons] at h
    simp only [consumeItems]
    rw [if_neg (by simp [capActive]; omega)]
    rw [ih (y + 1) (by omega)]
    simp only [List.length_cons, Prod.mk.injEq, true_and, and_true]
    omega

theorem autoPaginateGo_cap_prefix {α : Type} (fetch : Int → Page α) (k : Nat)
    (hk : 0 < k) :
    ∀ (m fuel : Nat) (start : Int) (y : Nat), y < k →
      (∀ j, j < m → ¬ stopsAt fetch start j) →
      (∀ j, j < m → y + chainCount fetch start (j + 1) < k) →
      k ≤ y + chainCount fetch start m +
        (fetch (chainOffset fetch start m)).data.length →
      m + 1 ≤ fuel →
      autoPaginateGo fetch (some k) fuel start y =
        some (((List.range (m + 1)).flatMap
          (fun j => (fetch (chainOffset fetch start j)).data)).take (k - y),
          m + 1) := by
  intro m
  induction m with
  | zero =>
    intro fuel start y hy _ _ hhit hfuel
    match fuel, hfuel with
    | fuel + 1, _ =>
      simp only [autoPaginateGo]
      rw [chainCount_zero, chainOffset_zero] at hhit
      have hhit2 : k ≤ y + (fetch start).data.length := by omega
      rw [consumeItems_cap_hit k hk (fetch start).data y hy hhit2]
      rw [if_pos rfl]
      simp [List.range_succ, chainOffset_zero]
  | succ m ih =>
    intro fuel start y hy hno hmiss hhit hfuel
    match fuel, hfuel with
    | fuel + 1, hfuel =>
      simp only [autoPaginateGo]
      have hlen0 : y + (fetch start).data.length < k := by
        have hm0 := hmiss 0 (Nat.succ_pos m)
        rw [chainCount_one] at hm0
        omega
      rw [consumeItems_cap_not_hit k (fetch start).data y hlen0]
      rw [if_neg (by simp)]
      have h0 : ¬ stopsAt fetch start 0 := hno 0 (Nat.succ_pos m)
      have hmore : (fetch start).meta.has_more = true := by
        by_contra hh
        exact h0 (Or.inl (by
          show (fetch start).meta.has_more = false
          revert hh
          cases (fetch start).meta.has_more <;> simp))
      have hne : (fetch start).data ≠ [] := fun hh => h0 (Or.inr hh)
      have hc2 : (!(fetch start).meta.has_more ||
          (fetch start).data.isEmpty) = false := by
        cases hdata : (fetch start).data with
        | nil => exact absurd hdata hne
        | cons b t => simp [hmore, hdata]
      rw [if_neg (by simp [hc2])]
      have hrec := ih fuel (chainOffset fetch start 1)
        (y + (fetch start).data.length)
        hlen0
        (fun j hj => by
          have hj2 := hno (j + 1) (by omega)
          rw [stopsAt_shift] at hj2
          exact hj2)
        (fun j hj => by
          have hj2 := hmiss (j + 1) (by omega)
          rw [chainCount_shift] at hj2
          omega)
        (by
          rw [chainCount_shift] at hhit
          rw [chainOffset_shift fetch start m] at hhit
          omega)
        (by omega)
      rw [show chainOffset fetch start 1 =
        (fetch start).meta.offset + (fetch start).meta.limit from rfl] at hrec
      rw [hrec]
      simp only [Option.map_some', Option.some.injEq]
      have hitems : (fetch start).data ++
          (((List.range (m + 1)).flatMap (fun j =>
            (fetch (chainOffset fetch
              ((fetch start).meta.offset + (fetch start).meta.limit) j)).data)).take
            (k - (y + (fetch start).data.length))) =
          ((List.range (m + 1 + 1)).flatMap
            (fun j => (fetch (chainOffset fetch start j)).data)).take (k - y) := by
        conv_rhs => rw [range_flatMap_succ]
        rw [List.take_append_eq_append_take, chainOffset_zero]
        rw [List.take_of_length_le
          (show (fetch start).data.length ≤ k - y by omega)]
        have hcnt : k - (y + (fetch start).data.length) =
            k - y - (fetch start).data.length := by omega
        have htail : (List.range (m + 1)).flatMap (fun j =>
            (fetch (chainOffset fetch
              ((fetch start).meta.offset + (fetch start).meta.limit) j)).data) =
            (List.range (m + 1)).flatMap (fun j =>
              (fetch (chainOffset fetch start (j + 1))).data) := by
          congr 1
          funext j
          rw [chainOffset_shift fetch start j]
          rfl
        rw [hcnt, htail]
      rw [hitems]

theorem autoPaginateGo_cap_miss {α : Type} (fetch : Int → Page α) (k : Nat) :
    ∀ (n fuel : Nat) (start : Int) (y : Nat),
      (∀ j, j < n → ¬ stopsAt fetch start j) → stopsAt fetch start n →
      y + chainCount fetch start (n + 1) < k → n + 1 ≤ fuel →
      autoPaginateGo fetch (some k) fuel start y =
        some ((List.range (n + 1)).flatMap
          (fun j => (fetch (chainOffset fetch start j)).data), n + 1) := by
  intro n
  induction n with
  | zero =>
    intro fuel start y _ hstop hmiss hfuel
    match fuel, hfuel with
    | fuel + 1, _ =>
      simp only [autoPaginateGo]
      rw [chainCount_one] at hmiss
      rw [consumeItems_cap_not_hit k (fetch start).data y hmiss]
      rw [if_neg (by simp)]
      have hcond : (!(fetch start).meta.has_more ||
          (fetch start).data.isEmpty) = true := by
        rcases hstop with hmore | hdata
        · have hmore2 : (fetch start).meta.has_more = false := hmore
          simp [hmore2]
        · have hdata2 : (fetch start).data = [] := hdata
          simp [hdata2]
      rw [if_pos hcond]
      simp [List.range_succ, chainOffset_zero]
  | succ n ih =>
    intro fuel start y hno hstop hmiss hfuel
    match fuel, hfuel with
    | fuel + 1, hfuel =>
      simp only [autoPaginateGo]
      have hlen0 : y + (fetch start).data.length < k := by
        have hmono := chainCount_le fetch start
          (show 1 ≤ n + 1 + 1 by omega)
        rw [chainCount_one] at hmono
        omega
      rw [consumeItems_cap_not_hit k (fetch start).data y hlen0]
      rw [if_neg (by simp)]
      have h0 : ¬ stopsAt fetch start 0 := hno 0 (Nat.succ_pos n)
      have hmore : (fetch start).meta.has_more = true := by
        by_contra hh
        exact h0 (Or.inl (by
          show (fetch start).meta.has_more = false
          revert hh
          cases (fetch start).meta.has_more <;> simp))
      have hne : (fetch start).data ≠ [] := fun hh => h0 (Or.inr hh)
      have hc2 : (!(fetch start).meta.has_more ||
          (fetch start).data.isEmpty) = false := by
        cases hdata : (fetch start).data with
        | nil => exact absurd hdata hne
        | cons b t => simp [hmore, hdata]
      rw [if_neg (by simp [hc2])]
      have hrec := ih fuel (chainOffset fetch start 1)
        (y + (fetch start).data.length)
        (fun j hj => by
          have hj2 := hno (j + 1) (by omega)
          rw [stopsAt_shift] at hj2
          exact hj2)
        (by rw [← stopsAt_shift]; exact hstop)
        (by
          rw [chainCount_shift] at hmiss
          omega)
        (by omega)
      rw [show chainOffset fetch start 1 =
        (fetch start).meta.offset + (fetch start).meta.limit from rfl] at hrec
      rw [hrec]
      simp only [Option.map_some', Option.some.injEq]
      have hitems : (fetch start).data ++
          (List.range (n + 1)).flatMap (fun j =>
            (fetch (chainOffset fetch
              ((fetch start).meta.offset + (fetch start).meta.limit) j)).data) =
          (List.range (n + 1 + 1)).flatMap
            (fun j => (fetch (chainOffset fetch start j)).data) := by
        conv_rhs => rw [range_flatMap_succ]
        congr 1
        · congr 1
          funext j
          rw [chainOffset_shift]
          rfl
      rw [hitems]

/-- C5: the auto-pagination driver starting at offset 0 yields the pages'
items flattened in server order and stops with the first page that reports
no more pages or returns zero items (one request per page, none after the
terminal page); under a positive cap `max_items = k` the yielded items
number at most `k`, and in full generality: when the cap is reached during
page `m` — even one that reports more pages — the driver yields exactly the
`k`-prefix of the server-order flattening of pages `0..m` and issues
exactly `m + 1` requests (none beyond the page that fills the cap), while a
cap never reached leaves the run identical to the uncapped one; and the
spec's concrete scenarios hold: two pages of size 1 with `total = 2` yield
both items in order with exactly 2 requests, `max_items = 1` over a page of
2 available items yields 1 item with exactly 1 request, and `max_items = 1`
over a page of 2 items that reports *more* pages still yields 1 item with
exactly 1 request. -/
theorem claim_C5_auto_pagination :
    (∀ (α : Type) (fetch : Int → Page α) (n fuel : Nat), n + 1 ≤ fuel →
      (∀ j, j < n → ¬ stopsAt fetch 0 j) → stopsAt fetch 0 n →
      list_auto_paginate fetch none fuel =
        some ((List.range (n + 1)).flatMap
          (fun j => (fetch (chainOffset fetch 0 j)).data), n + 1)) ∧
    (∀ (α : Type) (fetch : Int → Page α) (m : Option Nat) (fuel : Nat)
      (start : Int) (y : Nat), 0 < fuel → stopsAt fetch start 0 →
      ∃ items, autoPaginateGo fetch m fuel start y = some (items, 1)) ∧
    (∀ (α : Type) (fetch : Int → Page α) (k fuel : Nat)
      (res : List α × Nat), 0 < k →
      list_auto_paginate fetch (some k) fuel = some res →
      res.1.length ≤ k) ∧
    (∀ (α : Type) (fetch : Int → Page α) (k m fuel : Nat), 0 < k →
      (∀ j, j < m → ¬ stopsAt fetch 0 j) →
      (∀ j, j < m → chainCount fetch 0 (j + 1) < k) →
      k ≤ chainCount fetch 0 m + (fetch (chainOffset fetch 0 m)).data.length →
      m + 1 ≤ fuel →
      list_auto_paginate fetch (some k) fuel =
        some (((List.range (m + 1)).flatMap
          (fun j => (fetch (chainOffset fetch 0 j)).data)).take k, m + 1)) ∧
    (∀ (α : Type) (fetch : Int → Page α) (k n fuel : Nat),
      (∀ j, j < n → ¬ stopsAt fetch 0 j) → stopsAt fetch 0 n →
      chainCount fetch 0 (n + 1) < k → n + 1 ≤ fuel →
      list_auto_paginate fetch (some k) fuel =
        some ((List.range (n + 1)).flatMap
          (fun j => (fetch (chainOffset fetch 0 j)).data), n + 1)) ∧
    list_auto_paginate fetchTwoPages none 5 = some ([10, 20], 2) ∧
    list_auto_paginate fetchOnePageTwoItems (some 1) 5 = some ([10], 1) ∧
    list_auto_paginate fetchEndlessPages (some 1) 5 = some ([7], 1) := by
  refine ⟨?_, ?_, ?_, ?_, ?_, ?_, ?_, ?_⟩
  · intro α fetch n fuel hf hno hstop
    exact autoPaginateGo_flatten fetch n fuel 0 0 hf hno hstop
  · intro α fetch m fuel start y hf hstop
    match fuel, hf with
    | fuel + 1, _ =>
      simp only [autoPaginateGo]
      by_cases hs : (consumeItems m y (fetch start).data).2.2 = true
      · rw [if_pos hs]
        exact ⟨_, rfl⟩
      · rw [if_neg hs]
        have hcond : (!(fetch start).meta.has_more ||
            (fetch start).data.isEmpty) = true := by
          rcases hstop with h | h
          · have h2 : (fetch start).meta.has_more = false := h
            simp [h2]
          · have h2 : (fetch start).data = [] := h
            simp [h2]
        rw [if_pos hcond]
        exact ⟨_, rfl⟩
  · intro α fetch k fuel res hk hres
    have := autoPaginateGo_cap_le fetch k hk fuel 0 0 res hk hres
    omega
  · intro α fetch k m fuel hk hno hmiss hhit hfuel
    have := autoPaginateGo_cap_prefix fetch k hk m fuel 0 0 hk hno
      (fun j hj => by have := hmiss j hj; omega)
      (by omega) hfuel
    rw [Nat.sub_zero] at this
    exact this
  · intro α fetch k n fuel hno hstop hmiss hfuel
    exact autoPaginateGo_cap_miss fetch k n fuel 0 0 hno hstop
      (by omega) hfuel
  · rfl
  · rfl
  · rfl

/-- C5 witness: the flattening statement instantiated on the concrete
two-page server (chain length 2), the cap bound instantiated on the
concrete one-page server with `max_items = 1`, and the cap-hit prefix
statement instantiated on the server that always reports more pages
(`max_items = 1` is filled by its first page, so exactly one request is
issued although `has_more` is true). -/
theorem claim_C5_witness :
    list_auto_paginate fetchTwoPages none 5 =
      some ((List.range 2).flatMap
        (fun j => (fetchTwoPages (chainOffset fetchTwoPages 0 j)).data), 2) ∧
    (([10] : List Nat), 1).1.length ≤ 1 ∧
    list_auto_paginate fetchEndlessPages (some 1) 5 =
      some (((List.range 1).flatMap
        (fun j => (fetchEndlessPages
          (chainOffset fetchEndlessPages 0 j)).data)).take 1, 1) :=
  ⟨claim_C5_auto_pagination.1 Nat fetchTwoPages 1 5 (by decide)
      (by decide) (by decide),
   claim_C5_auto_pagination.2.2.1 Nat fetchOnePageTwoItems 1 5 ([10], 1)
      (by decide) rfl,
   claim_C5_auto_pagination.2.2.2.1 Nat fetchEndlessPages 1 0 5 (by decide)
      (fun j hj => absurd hj (Nat.not_lt_zero j))
      (fun j hj => absurd hj (Nat.not_lt_zero j))
      (by decide) (by decide)⟩

theorem autoPaginateGo_cap_zero {α : Type} (fetch : Int → Page α) :
    ∀ (fuel : Nat) (start : Int) (y : Nat),
      autoPaginateGo fetch (some 0) fuel start y =
        autoPaginateGo fetch none fuel start y := by
  intro fuel
  induction fuel with
  | zero => intro start y; rfl
  | succ fuel ih =>
    intro start y
    simp only [autoPaginateGo]
    rw [consumeItems_cap_inactive (some 0) rfl,
      consumeItems_cap_inactive none rfl]
    rw [ih]

/-- C10: `max_items = 0` is falsy in the `max_items and yielded >= max_items`
guard, so a zero cap is ignored: the driver behaves exactly as if no cap
were supplied (for every server and fuel), and in particular yields all
available items rather than zero. -/
theorem claim_C10_zero_cap_ignored :
    (∀ (α : Type) (fetch : Int → Page α) (fuel : Nat),
      list_auto_paginate fetch (some 0) fuel =
        list_auto_paginate fetch none fuel) ∧
    list_auto_paginate fetchOnePageTwoItems (some 0) 5 = some ([10, 20], 1) := by
  refine ⟨fun α fetch fuel => autoPaginateGo_cap_zero fetch fuel 0 0, ?_⟩
  rfl

theorem char_toNat_ofNat_lt (n : Nat) (h : n < 55296) : (Char.ofNat n).toNat = n := by
  unfold Char.ofNat Char.toNat
  rw [dif_pos (Or.inl h)]
  rfl

theorem isLow_not_up {c : Char} (h : isLow c = true) : isUp c = false := by
  simp only [isLow, Bool.and_eq_true, decide_eq_true_eq] at h
  by_contra hb
  simp only [Bool.not_eq_false, isUp, Bool.and_eq_true, decide_eq_true_eq] at hb
  omega

theorem isLow_not_digit {c : Char} (h : isLow c = true) : isDigitCh c = false := by
  simp only [isLow, Bool.and_eq_true, decide_eq_true_eq] at h
  by_contra hb
  simp only [Bool.not_eq_false, isDigitCh, Bool.and_eq_true,
    decide_eq_true_eq] at hb
  omega

theorem lowerChar_not_up (c : Char) : isUp (lowerChar c) = false := by
  unfold lowerChar
  by_cases h : isUp c = true
  · rw [if_pos h]
    simp only [isUp, Bool.and_eq_true, decide_eq_true_eq] at h
    by_contra hb
    simp only [Bool.not_eq_false, isUp, Bool.and_eq_true,
      decide_eq_true_eq] at hb
    rw [char_toNat_ofNat_lt _ (by omega)] at hb
    omega
  · rw [if_neg h]
    simp only [Bool.not_eq_true] at h
    exact h

theorem lowerChar_digit_free (c : Char) (h : isDigitCh c = false) :
    isDigitCh (lowerChar c) = false := by
  unfold lowerChar
  by_cases hu : isUp c = true
  · rw [if_pos hu]
    simp only [isUp, Bool.and_eq_true, decide_eq_true_eq] at hu
    by_contra hb
    simp only [Bool.not_eq_false, isDigitCh, Bool.and_eq_true,
      decide_eq_true_eq] at hb
    rw [char_toNat_ofNat_lt _ (by omega)] at hb
    omega
  · rw [if_neg hu]
    exact h

theorem sub1_fixed : ∀ l : List Char, (∀ c ∈ l, isUp c = false) → sub1 l = l
  | [], _ => rfl
  | [_], _ => rfl
  | [_, _], _ => rfl
  | a :: b :: c :: rest, h => by
    have ha : isUp a = false := h a (by simp)
    simp only [sub1, ha, Bool.false_and]
    rw [if_neg (by simp)]
    rw [sub1_fixed (b :: c :: rest) (fun x hx => h x (List.mem_cons_of_mem a hx))]

theorem sub2_fixed : ∀ l : List Char, (∀ c ∈ l, isUp c = false) → sub2 l = l
  | [], _ => rfl
  | [_], _ => rfl
  | a :: b :: rest, h => by
    have hb : isUp b = false := h b (by simp)
    simp only [sub2, hb, Bool.and_false]
    rw [if_neg (by simp)]
    rw [sub2_fixed (b :: rest) (fun x hx => h x (List.mem_cons_of_mem a hx))]

theorem sub3_fixed : ∀ l : List Char, (∀ c ∈ l, isDigitCh c = false) → sub3 l = l
  | [], _ => rfl
  | [_], _ => rfl
  | a :: b :: rest, h => by
    have hb : isDigitCh b = false := h b (by simp)
    simp only [sub3, hb, Bool.and_false]
    rw [if_neg (by simp)]
    rw [sub3_fixed (b :: rest) (fun x hx => h x (List.mem_cons_of_mem a hx))]

theorem map_lowerChar_fixed : ∀ l : List Char,
    (∀ c ∈ l, isUp c = false) → l.map lowerChar = l
  | [], _ => rfl
  | a :: t, h => by
    have ha : lowerChar a = a := by
      unfold lowerChar
      rw [h a (by simp)]
      simp
    simp only [List.map_cons, ha]
    rw [map_lowerChar_fixed t (fun x hx => h x (List.mem_cons_of_mem a hx))]

theorem sub1_mem : ∀ (l : List Char) (c : Char), c ∈ sub1 l → c ∈ l ∨ c = '_'
  | [], _, hc => .inl hc
  | [_], _, hc => .inl hc
  | [_, _], _, hc => .inl hc
  | a :: b :: d :: rest, c, hc => by
    simp only [sub1] at hc
    split at hc
    · simp only [List.mem_cons] at hc
      rcases hc with rfl | rfl | hc
      · exact .inl (by simp)
      · exact .inr rfl
      · rcases sub1_mem (b :: d :: rest) c hc with h | h
        · exact .inl (List.mem_cons_of_mem a h)
        · exact .inr h
    · simp only [List.mem_cons] at hc
      rcases hc with rfl | hc
      · exact .inl (by simp)
      · rcases sub1_mem (b :: d :: rest) c hc with h | h
        · exact .inl (List.mem_cons_of_mem a h)
        · exact .inr h

theorem sub2_mem : ∀ (l : List Char) (c : Char), c ∈ sub2 l → c ∈ l ∨ c = '_'
  | [], _, hc => .inl hc
  | [_], _, hc => .inl hc
  | a :: b :: rest, c, hc => by
    simp only [sub2] at hc
    split at hc
    · simp only [List.mem_cons] at hc
      rcases hc with rfl | rfl | rfl | hc
      · exact .inl (by simp)
      · exact .inr rfl
      · exact .inl (by simp)
      · rcases sub2_mem rest c hc with h | h
        · exact .inl (by simp [h])
        · exact .inr h
    · simp only [List.mem_cons] at hc
      rcases hc with rfl | hc
      · exact .inl (by simp)
      · rcases sub2_mem (b :: rest) c hc with h | h
        · exact .inl (List.mem_cons_of_mem a h)
        · exact .inr h

theorem sub3_mem : ∀ (l : List Char) (c : Char), c ∈ sub3 l → c ∈ l ∨ c = '_'
  | [], _, hc => .inl hc
  | [_], _, hc => .inl hc
  | a :: b :: rest, c, hc => by
    simp only [sub3] at hc
    split at hc
    · simp only [List.mem_cons] at hc
      rcases hc with rfl | rfl | rfl | hc
      · exact .inl (by simp)
      · exact .inr rfl
      · exact .inl (by simp)
      · rcases sub3_mem rest c hc with h | h
        · exact .inl (by simp [h])
        · exact .inr h
    · simp only [List.mem_cons] at hc
      rcases hc with rfl | hc
      · exact .inl (by simp)
      · rcases sub3_mem (b :: rest) c hc with h | h
        · exact .inl (List.mem_cons_of_mem a h)
        · exact .inr h

theorem camel_fixed (s : String) (h : ∀ c ∈ s.data, isLow c = true ∨ c = '_') :
    _camel_to_snake s = s := by
  have hup : ∀ c ∈ s.data, isUp c = false := by
    intro c hc
    rcases h c hc with hl | rfl
    · exact isLow_not_up hl
    · decide
  have hdig : ∀ c ∈ s.data, isDigitCh c = false := by
    intro c hc
    rcases h c hc with hl | rfl
    · exact isLow_not_digit hl
    · decide
  unfold _camel_to_snake
  rw [sub1_fixed _ hup, sub2_fixed _ hup, sub3_fixed _ hdig,
    map_lowerChar_fixed _ hup]

theorem camel_data_mem (s : String) :
    ∀ c ∈ (_camel_to_snake s).data, (∃ d ∈ s.data, c = lowerChar d) ∨ c = '_' := by
  intro c hc
  replace hc : c ∈ (sub3 (sub2 (sub1 s.data))).map lowerChar := hc
  simp only [List.mem_map] at hc
  obtain ⟨d, hd, rfl⟩ := hc
  rcases sub3_mem _ d hd with hd2 | rfl
  · rcases sub2_mem _ d hd2 with hd3 | rfl
    · rcases sub1_mem _ d hd3 with hd4 | rfl
      · exact .inl ⟨d, hd4, rfl⟩
      · exact .inr (by decide)
    · exact .inr (by decide)
  · exact .inr (by decide)

theorem camel_idem_digit_free (s : String)
    (hdig : ∀ c ∈ s.data, isDigitCh c = false) :
    _camel_to_snake (_camel_to_snake s) = _camel_to_snake s := by
  have hup : ∀ c ∈ (_camel_to_snake s).data, isUp c = false := by
    intro c hc
    rcases camel_data_mem s c hc with ⟨d, _, rfl⟩ | rfl
    · exact lowerChar_not_up d
    · decide
  have hdig2 : ∀ c ∈ (_camel_to_snake s).data, isDigitCh c = false := by
    intro c hc
    rcases camel_data_mem s c hc with ⟨d, hd, rfl⟩ | rfl
    · exact lowerChar_digit_free d (hdig d hd)
    · decide
  have key : ∀ t : String, (∀ c ∈ t.data, isUp c = false) →
      (∀ c ∈ t.data, isDigitCh c = false) → _camel_to_snake t = t := by
    intro t h1 h2
    unfold _camel_to_snake
    rw [sub1_fixed _ h1, sub2_fixed _ h1, sub3_fixed _ h2,
      map_lowerChar_fixed _ h1]
  exact key (_camel_to_snake s) hup hdig2

theorem transformArrItems_eq_map :
    ∀ l : List Json, transformArrItems l = l.map _transform_keys
  | [] => rfl
  | j :: rest => by
    simp only [transformArrItems, List.map_cons, transformArrItems_eq_map rest]

theorem transformObjFields_eq_map : ∀ l : List (String × Json),
    transformObjFields l =
      l.map (fun p => (_camel_to_snake p.1, _transform_keys p.2))
  | [] => rfl
  | (k, v) :: rest => by
    simp only [transformObjFields, List.map_cons, transformObjFields_eq_map rest]

/-- C7 (amended): the normalizer recursively rewrites mapping keys through
nested objects and lists and passes all other values through unchanged; the
per-key rewrite maps `sourceId`, `volume24h`, `yesPrice` to `source_id`,
`volume_24h`, `yes_price`, is a fixed point on keys with no case transitions
(lowercase letters and underscores, and the three normalized example keys
with digits), and is idempotent on digit-free keys.  It is NOT idempotent on
its whole image: an uppercase letter immediately before a digit normalizes
to lowercase-digit, which a second application splits (`A4` → `a4` → `a_4`).
Totality and determinism hold because the embedding is a Lean function. -/
theorem claim_C7_key_normalizer_amended :
    (_camel_to_snake "sourceId" = "source_id" ∧
      _camel_to_snake "volume24h" = "volume_24h" ∧
      _camel_to_snake "yesPrice" = "yes_price") ∧
    (_camel_to_snake "source_id" = "source_id" ∧
      _camel_to_snake "volume_24h" = "volume_24h" ∧
      _camel_to_snake "yes_price" = "yes_price") ∧
    (_transform_keys .null = .null ∧
      (∀ b, _transform_keys (.bool b) = .bool b) ∧
      (∀ n, _transform_keys (.num n) = .num n) ∧
      (∀ s, _transform_keys (.str s) = .str s)) ∧
    ((∀ elems, _transform_keys (.arr elems) = .arr (elems.map _transform_keys)) ∧
      (∀ fields, _transform_keys (.obj fields) =
        .obj (fields.map (fun p => (_camel_to_snake p.1, _transform_keys p.2))))) ∧
    (∀ s : String, (∀ c ∈ s.data, isLow c = true ∨ c = '_') →
      _camel_to_snake s = s) ∧
    (∀ s : String, (∀ c ∈ s.data, isDigitCh c = false) →
      _camel_to_snake (_camel_to_snake s) = _camel_to_snake s) := by
  refine ⟨⟨rfl, rfl, rfl⟩, ⟨rfl, rfl, rfl⟩,
    ⟨rfl, fun b => rfl, fun n => rfl, fun s => rfl⟩,
    ⟨fun elems => ?_, fun fields => ?_⟩, camel_fixed, camel_idem_digit_free⟩
  · simp only [_transform_keys, transformArrItems_eq_map]
  · simp only [_transform_keys, transformObjFields_eq_map]

/-- C7 counterexample: the claim's idempotence on already-normalized input
fails.  `A4` normalizes to `a4`, which is therefore normalized, yet a second
application rewrites it to `a_4`; the same happens through the recursive
object traversal. -/
theorem claim_C7_counterexample :
    _camel_to_snake "A4" = "a4" ∧
    _camel_to_snake (_camel_to_snake "A4") = "a_4" ∧
    _camel_to_snake "a4" ≠ "a4" ∧
    _transform_keys (.obj [("A4", .null)]) = .obj [("a4", .null)] ∧
    _transform_keys (_transform_keys (.obj [("A4", .null)])) =
      .obj [("a_4", .null)] :=
  ⟨rfl, rfl, by decide, rfl, rfl⟩

/-- C7 witness: the fixed-point statement on a lowercase key and the
digit-free idempotence statement on `sourceId`, both instantiated. -/
theorem claim_C7_witness :
    _camel_to_snake "market" = "market" ∧
    _camel_to_snake (_camel_to_snake "sourceId") = _camel_to_snake "sourceId" :=
  ⟨claim_C7_key_normalizer_amended.2.2.2.2.1 "market" (by decide),
   claim_C7_key_normalizer_amended.2.2.2.2.2 "sourceId" (by decide)⟩

theorem emitRun_ids : ∀ (l : List Handler) (arg : Json),
    (emitRun l arg).1 = l.map Handler.id
  | [], _ => rfl
  | h :: rest, arg => by
    cases hr : h.run arg with
    | none =>
      show (emitRun (h :: rest) arg).1 = _
      simp only [emitRun, hr, List.map_cons]
      rw [emitRun_ids rest arg]
    | some e =>
      show (emitRun (h :: rest) arg).1 = _
      simp only [emitRun, hr, List.map_cons]
      rw [emitRun_ids rest arg]

theorem emitRun_logged : ∀ (l : List Handler) (arg : Json),
    (emitRun l arg).2 =
      (l.filter (fun h => (h.run arg).isSome)).map Handler.id
  | [], _ => rfl
  | h :: rest, arg => by
    cases hr : h.run arg with
    | none =>
      show (emitRun (h :: rest) arg).2 = _
      simp only [emitRun, hr, List.filter_cons, Option.isSome_none,
        Bool.false_eq_true, if_false]
      exact emitRun_logged rest arg
    | some e =>
      show (emitRun (h :: rest) arg).2 = _
      simp only [emitRun, hr, List.filter_cons, Option.isSome_some, if_true]
      simp only [List.map_cons]
      rw [emitRun_logged rest arg]

/-- C9: every inbound message whose `type` discriminator is not one of the
six known channel names — including a missing `type` and a non-string
`type` — is silently dropped (`_handle_message` returns with no emission
and no exception, being a total function); a known discriminator dispatches
to `_emit`; and `_emit` invokes every handler registered for the event, in
registration order, even when earlier handlers raise, logging exactly the
raisers and never propagating an exception to its caller. -/
theorem claim_C9_receive_path_isolation :
    (∀ (listeners : String → List Handler) (message : List (String × Json))
      (t : String), dictGet message "type" = some (.str t) →
      t ∉ handledTypes → _handle_message listeners message = ([], [])) ∧
    (∀ (listeners : String → List Handler) (message : List (String × Json)),
      dictGet message "type" = none →
      _handle_message listeners message = ([], [])) ∧
    (∀ (listeners : String → List Handler) (message : List (String × Json))
      (v : Json), dictGet message "type" = some v → (∀ t, v ≠ .str t) →
      _handle_message listeners message = ([], [])) ∧
    (∀ (listeners : String → List Handler) (message : List (String × Json))
      (t : String), dictGet message "type" = some (.str t) →
      t ∈ handledTypes →
      _handle_message listeners message = _emit listeners t (.obj message)) ∧
    (∀ (listeners : String → List Handler) (event : String) (arg : Json),
      (_emit listeners event arg).1 = (listeners event).map Handler.id ∧
      (_emit listeners event arg).2 =
        ((listeners event).filter (fun h => (h.run arg).isSome)).map
          Handler.id) := by
  refine ⟨fun listeners message t ht hmem => ?_, fun listeners message ht => ?_,
    fun listeners message v hv hnv => ?_, fun listeners message t ht hmem => ?_,
    fun listeners event arg =>
      ⟨emitRun_ids (listeners event) arg, emitRun_logged (listeners event) arg⟩⟩
  · simp only [_handle_message, ht, Option.getD_some]
    rw [if_neg hmem]
  · simp only [_handle_message, ht, Option.getD_none]
    rw [if_neg (by decide)]
  · cases v with
    | str s => exact absurd rfl (hnv s)
    | null => simp [_handle_message, hv]
    | bool b => simp [_handle_message, hv]
    | num n => simp [_handle_message, hv]
    | arr elems => simp [_handle_message, hv]
    | obj fields => simp [_handle_message, hv]
  · simp only [_handle_message, ht, Option.getD_some]
    rw [if_pos hmem]

/-- C9 witness: an unrecognized `pong` frame emits nothing, and a known
`market_update` frame runs both registered handlers in order although the
first one raises, logging exactly the raiser. -/
theorem claim_C9_witness :
    _handle_message (fun _ => [⟨1, fun _ => some "boom"⟩, ⟨2, fun _ => none⟩])
      [("type", .str "pong")] = ([], []) ∧
    _handle_message (fun _ => [⟨1, fun _ => some "boom"⟩, ⟨2, fun _ => none⟩])
      [("type", .str "market_update")] = ([1, 2], [1]) := by
  constructor
  · exact claim_C9_receive_path_isolation.1
      (fun _ => [⟨1, fun _ => some "boom"⟩, ⟨2, fun _ => none⟩])
      [("type", .str "pong")] "pong" rfl (by decide)
  · rw [claim_C9_receive_path_isolation.2.2.2.1
      (fun _ => [⟨1, fun _ => some "boom"⟩, ⟨2, fun _ => none⟩])
      [("type", .str "market_update")] "market_update" rfl (by decide)]
    rfl

/-- C6 (amended): the reconnect procedure refuses to run once the attempt
counter has reached `max_reconnect_attempts` (it emits a final error and
does nothing else); below the bound each attempt increments the counter,
emits a `reconnect` event with the attempt number and then sleeps
`min(2^(attempts-1), 30)` seconds with no jitter (1, 2, 4, 8, 16 seconds
for attempts 1..5) before retrying `connect()`; a failed retry leaves the
incremented counter in place; a successful reconnect resets the counter and
re-issues exactly one `subscribe` frame carrying the full current
subscription set — but only when that set is nonempty (no frame is sent for
an empty set) — and `subscribe`/`unsubscribe` while disconnected update the
set without sending frames, so the replayed frame reflects them. -/
theorem claim_C6_reconnect_amended :
    (∀ (ok : Bool) (s : WSState),
      s.max_reconnect_attempts ≤ s.reconnect_attempts →
      _attempt_reconnect ok s = (s, [.emit_error])) ∧
    (∀ (ok : Bool) (s : WSState),
      s.reconnect_attempts < s.max_reconnect_attempts →
      ∃ rest, (_attempt_reconnect ok s).2 =
        .emit_reconnect (s.reconnect_attempts + 1) ::
          .sleep (min ((2 : ℚ) ^ s.reconnect_attempts) 30) :: rest) ∧
    (∀ s : WSState, s.reconnect_attempts < s.max_reconnect_attempts →
      s.closed = false →
      (_attempt_reconnect false s).1.reconnect_attempts =
        s.reconnect_attempts + 1) ∧
    (min ((2 : ℚ) ^ (1 - 1)) 30 = 1 ∧ min ((2 : ℚ) ^ (2 - 1)) 30 = 2 ∧
      min ((2 : ℚ) ^ (3 - 1)) 30 = 4 ∧ min ((2 : ℚ) ^ (4 - 1)) 30 = 8 ∧
      min ((2 : ℚ) ^ (5 - 1)) 30 = 16) ∧
    (∀ s : WSState, s.reconnect_attempts < s.max_reconnect_attempts →
      s.closed = false → s.subscribed_markets ≠ ∅ →
      (_attempt_reconnect true s).2 =
        [.emit_reconnect (s.reconnect_attempts + 1),
          .sleep (min ((2 : ℚ) ^ s.reconnect_attempts) 30),
          .connect_call, .frame_subscribe s.subscribed_markets] ∧
      (_attempt_reconnect true s).1.subscribed_markets =
        s.subscribed_markets ∧
      (_attempt_reconnect true s).1.reconnect_attempts = 0) ∧
    (∀ (s : WSState) (A B : Finset String),
      (subscribe false A s).2 = [] ∧
      (subscribe false A s).1.subscribed_markets = s.subscribed_markets ∪ A ∧
      (unsubscribe false B s).2 = [] ∧
      (unsubscribe false B s).1.subscribed_markets =
        s.subscribed_markets \ B) := by
  refine ⟨fun ok s h => ?_, fun ok s h => ?_, fun s h hcl => ?_,
    ⟨by norm_num, by norm_num, by norm_num, by norm_num, by norm_num⟩,
    fun s h hcl hne => ?_, fun s A B => ⟨rfl, rfl, rfl, rfl⟩⟩
  · simp only [_attempt_reconnect]
    rw [if_pos h]
  · simp only [_attempt_reconnect]
    rw [if_neg (by omega)]
    simp only [Nat.add_sub_cancel]
    split
    · exact ⟨[], rfl⟩
    · split
      · split
        · exact ⟨[.connect_call], rfl⟩
        · exact ⟨[.connect_call, .frame_subscribe s.subscribed_markets], rfl⟩
      · exact ⟨[.connect_call], rfl⟩
  · simp only [_attempt_reconnect]
    rw [if_neg (by omega)]
    rw [if_neg (by simp [hcl])]
    simp
  · simp only [_attempt_reconnect]
    rw [if_neg (by omega)]
    rw [if_neg (by simp [hcl])]
    rw [if_pos trivial]
    rw [if_neg (by simpa using hne)]
    simp only [Nat.add_sub_cancel]
    refine ⟨rfl, ?_, rfl⟩
    simp [subscribe, Finset.union_self]

/-- C6 counterexample: a successful reconnect from a state with an empty
subscription set issues no subscribe frame at all (the claim asserts a
single subscribe call carrying the full — here empty — set). -/
theorem claim_C6_counterexample :
    (_attempt_reconnect true ⟨false, 0, 5, ∅⟩).2 =
      [.emit_reconnect 1, .sleep 1, .connect_call] ∧
    (_attempt_reconnect true ⟨false, 0, 5, ∅⟩).1.reconnect_attempts = 0 ∧
    WSAction.frame_subscribe (∅ : Finset String) ∉
      (_attempt_reconnect true ⟨false, 0, 5, ∅⟩).2 := by
  refine ⟨?_, rfl, ?_⟩
  · show ([(.emit_reconnect 1 : WSAction), .sleep (min ((2 : ℚ) ^ (0 : Nat)) 30),
      .connect_call] : List WSAction) = _
    norm_num
  · intro hmem
    have : (_attempt_reconnect true ⟨false, 0, 5, ∅⟩).2 =
        [.emit_reconnect 1, .sleep (min ((2 : ℚ) ^ (0 : Nat)) 30),
          .connect_call] := rfl
    rw [this] at hmem
    simp at hmem

/-- C6 witness: the replay statement instantiated on a state holding the
subscription set as updated while disconnected (`m1` removed, `m3` added to
an initial `{m1, m2}`), showing the single subscribe frame carries the
updated set. -/
theorem claim_C6_witness :
    (_attempt_reconnect true ⟨false, 2, 5, {"m2", "m3"}⟩).2 =
      [.emit_reconnect 3, .sleep (min ((2 : ℚ) ^ (2 : Nat)) 30),
        .connect_call, .frame_subscribe {"m2", "m3"}] ∧
    (_attempt_reconnect true ⟨false, 2, 5, {"m2", "m3"}⟩).1.subscribed_markets =
      {"m2", "m3"} ∧
    (_attempt_reconnect true ⟨false, 2, 5, {"m2", "m3"}⟩).1.reconnect_attempts = 0 :=
  claim_C6_reconnect_amended.2.2.2.2.1 ⟨false, 2, 5, {"m2", "m3"}⟩
    (by norm_num) rfl (by decide)

/-- C8: for every metadata triple, `has_more` holds iff `offset + limit < total`,
and `next_offset` is absent exactly when `has_more` is false, otherwise it
equals `offset + limit`. -/
theorem claim_C8_pagination_cursor :
    (∀ m : PaginationMeta, m.has_more = true ↔ m.offset + m.limit < m.total) ∧
    (∀ m : PaginationMeta, m.next_offset = none ↔ ¬ (m.has_more = true)) ∧
    (∀ m : PaginationMeta, m.has_more = true → m.next_offset = some (m.offset + m.limit)) := by
  refine ⟨fun m => ?_, fun m => ?_, fun m h => ?_⟩
  · simp [PaginationMeta.has_more]
  · unfold PaginationMeta.next_offset
    by_cases h : m.has_more <;> simp [h]
  · simp [PaginationMeta.next_offset, h]

end Propheseer
